import Mathlib

/-!
# LabourNet: the project routes over the Project model

A shallow embedding of `backend/src/models/Project.js` (the Mongoose schema),
`backend/src/routes/projects.js` (the five route handlers), and the handlers of
`src/pages/ContractorDashboard.jsx` and `src/components/PostProjectForm.jsx`
that build the objects sent to the API.

Modelling conventions.

* The collection is a list of documents in insertion order.
* The handlers are modelled in two layers. The functions `http.*` take a
  request as it arrives: strings in the URL and the query, a JSON object as
  body. They hand these to the casts of the library, which are parameters
  (`Library`), and answer from the `catch` branch when a cast throws. The
  functions `router.*` are the same handlers once the identifier is cast and
  the body is read as a typed plain body (`Body`): an `ObjectId` is an abstract
  identifier, a `Date` a number of milliseconds, a `Number` an integer.
* An update whose body has operators, dotted keys or null values is not a
  typed plain body; the library reads it as an effect on the matched document
  (`UpdateReading.operators`), about which nothing is assumed except that the
  `_id` is kept.
* The clock reading and the identifier generated for a new document are inputs
  of a request (`Env`).
* The virtual `contractorDetails` is not populated by any handler and is not
  represented in a response.
* The in-memory collection itself never throws: the `catch` branches are
  reached by a cast that throws and, in the create handler, by a validation
  error of `save`.
* The `strictQuery` option, which decides whether a query condition on an
  undeclared path reaches the store, is set outside the two source files; it is
  a field of `Library`.
* The collection has a unique index on `_id`; properties that need it take
  `uniqueIds` as a hypothesis, and `uniqueIds_handle` shows the handlers keep it.
* A page handler is modelled by the object it hands to the API function
  (`createProject`, `createApplication`, `api.post`), or by none when it throws
  before the call; JavaScript values are primitives and plain objects, numbers
  are the integers a double holds, the infinities, or NaN.
-/

set_option autoImplicit false

namespace LabourNet

/-- Identifier of a document (`mongoose.Schema.Types.ObjectId`). -/
abbrev ObjectId := Nat

/-- Instant in milliseconds (`Date`). -/
abbrev Date := Nat

/-! ## The schema (`models/Project.js`) -/

/-- Nested path `timeline` of `projectSchema`. -/
structure Timeline where
  startDate : Option Date
  endDate : Option Date
deriving DecidableEq, Repr

/-- Nested path `hourlyRate` of `projectSchema`. -/
structure HourlyRate where
  min : Option Int
  max : Option Int
deriving DecidableEq, Repr

/-- Element of `projectSchema.workers` as stored: `status` and `appliedAt`
carry defaults, so they are always present. The `_id` that subdocuments receive
is not represented. -/
structure Application where
  worker : Option ObjectId
  status : String
  appliedAt : Date
deriving DecidableEq, Repr

/-- Element of `workers` as it arrives in a request body. -/
structure ApplicationInput where
  worker : Option ObjectId
  status : Option String
  appliedAt : Option Date
deriving DecidableEq, Repr

/-- A Project document. Paths without a default may be absent; `status`,
`applicantsCount` and `progress` carry defaults; `createdAt` and `updatedAt`
come from the schema option `timestamps: true`. -/
structure Project where
  _id : ObjectId
  title : Option String
  description : Option String
  location : Option String
  projectType : Option String
  timeline : Timeline
  hourlyRate : HourlyRate
  status : String
  contractor : Option ObjectId
  workers : List Application
  employmentType : Option String
  applicantsCount : Int
  progress : Int
  createdAt : Option Date
  updatedAt : Option Date
deriving DecidableEq, Repr

/-- The body of a POST or PUT request (`req.body`) once cast, restricted to
the paths the schema declares. -/
structure Body where
  title : Option String
  description : Option String
  location : Option String
  projectType : Option String
  timeline : Option Timeline
  hourlyRate : Option HourlyRate
  status : Option String
  contractor : Option ObjectId
  workers : Option (List ApplicationInput)
  employmentType : Option String
  applicantsCount : Option Int
  progress : Option Int
deriving DecidableEq, Repr

/-- The body `{}`. -/
def Body.empty : Body :=
  { title := none, description := none, location := none, projectType := none,
    timeline := none, hourlyRate := none, status := none, contractor := none,
    workers := none, employmentType := none, applicantsCount := none,
    progress := none }

/-- Enum of `projectSchema.projectType`. -/
def projectTypeEnum : List String := ["Residential", "Commercial", "Industrial"]

/-- Enum of `projectSchema.status`. -/
def statusEnum : List String := ["draft", "active", "completed", "cancelled"]

/-- Enum of `projectSchema.workers[].status`. -/
def workerStatusEnum : List String := ["pending", "accepted", "rejected"]

/-- Enum of `projectSchema.employmentType`. -/
def employmentTypeEnum : List String := ["Full-time", "Part-time", "Contract"]

/-- What a request carries besides its parameters: the clock reading
(`Date.now`) and the identifier generated for a document constructed while
serving it. -/
structure Env where
  now : Date
  oid : ObjectId
deriving DecidableEq, Repr

/-- Casting one element of `workers` to a subdocument: `status` defaults to
pending and `appliedAt` to `Date.now`. -/
def castApplication (now : Date) (a : ApplicationInput) : Application :=
  { worker := a.worker,
    status := a.status.getD "pending",
    appliedAt := a.appliedAt.getD now }

/-- Constructor `new Project(req.body)`: copies the declared paths, applies the
schema defaults (`status` active, `workers` empty, `applicantsCount` 0,
`progress` 0) and generates `_id`. Timestamps are not set before `save`. -/
def Project.new (env : Env) (body : Body) : Project :=
  { _id := env.oid,
    title := body.title,
    description := body.description,
    location := body.location,
    projectType := body.projectType,
    timeline := body.timeline.getD { startDate := none, endDate := none },
    hourlyRate := body.hourlyRate.getD { min := none, max := none },
    status := body.status.getD "active",
    contractor := body.contractor,
    workers := (body.workers.getD []).map (castApplication env.now),
    employmentType := body.employmentType,
    applicantsCount := body.applicantsCount.getD 0,
    progress := body.progress.getD 0,
    createdAt := none,
    updatedAt := none }

/-! ## Validation run by `save` -/

/-- One failed validator of a `ValidationError`. -/
inductive ValidatorError where
  | required (path : String)
  | enum (path : String) (value : String)
  | workerStatus (index : Nat) (value : String)
deriving DecidableEq, Repr

/-- The `required` validator of a String path: the value must be present and
must not be the empty string. -/
def requiredString (path : String) : Option String → List ValidatorError
  | some s => if s = "" then [ValidatorError.required path] else []
  | none => [ValidatorError.required path]

/-- The `required` validator of an ObjectId path: the value must be present. -/
def requiredObjectId (path : String) : Option ObjectId → List ValidatorError
  | some _ => []
  | none => [ValidatorError.required path]

/-- The `enum` validator of a String path: an absent value passes. -/
def enumString (path : String) (allowed : List String) : Option String → List ValidatorError
  | some s => if s ∈ allowed then [] else [ValidatorError.enum path s]
  | none => []

/-- The `enum` validator of `status` in each element of `workers`. -/
def validateWorkers : Nat → List Application → List ValidatorError
  | _, [] => []
  | i, a :: rest =>
    (if a.status ∈ workerStatusEnum then [] else [ValidatorError.workerStatus i a.status])
      ++ validateWorkers (i + 1) rest

/-- All validators of `projectSchema`, in schema order. -/
def Project.validate (p : Project) : List ValidatorError :=
  requiredString "title" p.title
    ++ requiredString "location" p.location
    ++ requiredString "projectType" p.projectType
    ++ enumString "projectType" projectTypeEnum p.projectType
    ++ enumString "status" statusEnum (some p.status)
    ++ requiredObjectId "contractor" p.contractor
    ++ validateWorkers 0 p.workers
    ++ requiredString "employmentType" p.employmentType
    ++ enumString "employmentType" employmentTypeEnum p.employmentType

/-! ## The model statics over the collection -/

/-- The collection of Project documents, in insertion order. -/
abbrev Store := List Project

/-- The timestamps option on the first save: `createdAt` and `updatedAt` are
both set to the current time. -/
def Project.stamped (now : Date) (p : Project) : Project :=
  { p with createdAt := some now, updatedAt := some now }

/-- Method `project.save()` of a new document: throws the validation error when
a validator fails, otherwise sets both timestamps and inserts the document. -/
def Project.save (env : Env) (p : Project) (store : Store) :
    Except (List ValidatorError) (Project × Store) :=
  match p.validate with
  | [] => Except.ok (p.stamped env.now, store ++ [p.stamped env.now])
  | e :: es => Except.error (e :: es)

/-- Query object handed to `Project.find`. -/
structure Filter where
  builder : Option String
  contractor : Option ObjectId
deriving DecidableEq, Repr

/-- Value a stored document holds at path `builder`: the schema declares no
such path, so no document written through the model has one. -/
def Project.builder (_p : Project) : Option String := none

/-- Whether a document satisfies every equality condition of the query. -/
def Filter.matches (f : Filter) (p : Project) : Bool :=
  (match f.builder with
    | none => true
    | some b => p.builder == some b)
  && (match f.contractor with
    | none => true
    | some c => p.contractor == some c)

/-- What the `strictQuery` option does to a query before it reaches the store:
when it is on, conditions on paths the schema does not declare (`builder`) are
removed; when it is off, the query is sent as it is. -/
def Filter.sanitize (strictQuery : Bool) (f : Filter) : Filter :=
  if strictQuery then { f with builder := none } else f

/-- Static `Project.find(query)`. The `strictQuery` option is set outside the
model and the routes, so it is a parameter here. -/
def Project.find (strictQuery : Bool) (query : Filter) (store : Store) : List Project :=
  store.filter (query.sanitize strictQuery).matches

/-- Static `Project.findById(id)`: the first document with that `_id`, or
null. -/
def Project.findById (id : ObjectId) (store : Store) : Option Project :=
  store.find? (fun p => p._id == id)

/-- The update `{ $set: body }` applied to one document: each path named in the
body takes the body value (a nested `timeline` or `hourlyRate` object and the
`workers` array are replaced as a whole, array elements being cast to
subdocuments), and `updatedAt` is set by the timestamps option. No validator
runs (`runValidators` is not passed). -/
def applyUpdate (now : Date) (body : Body) (p : Project) : Project :=
  { p with
    title := body.title <|> p.title,
    description := body.description <|> p.description,
    location := body.location <|> p.location,
    projectType := body.projectType <|> p.projectType,
    timeline := body.timeline.getD p.timeline,
    hourlyRate := body.hourlyRate.getD p.hourlyRate,
    status := body.status.getD p.status,
    contractor := body.contractor <|> p.contractor,
    workers := match body.workers with
      | some ws => ws.map (castApplication now)
      | none => p.workers,
    employmentType := body.employmentType <|> p.employmentType,
    applicantsCount := body.applicantsCount.getD p.applicantsCount,
    progress := body.progress.getD p.progress,
    updatedAt := some now }

/-- Replace the first document whose `_id` is `id`. -/
def updateFirst (id : ObjectId) (f : Project → Project) : Store → Store
  | [] => []
  | p :: rest => if p._id = id then f p :: rest else p :: updateFirst id f rest

/-- Remove the first document whose `_id` is `id`. -/
def deleteFirst (id : ObjectId) : Store → Store
  | [] => []
  | p :: rest => if p._id = id then rest else p :: deleteFirst id rest

/-- Static `Project.findByIdAndUpdate(id, body, { new: true })`: null when no
document has that `_id`, otherwise the document after the update. -/
def Project.findByIdAndUpdate (now : Date) (id : ObjectId) (body : Body) (store : Store) :
    Option Project × Store :=
  match Project.findById id store with
  | none => (none, store)
  | some p => (some (applyUpdate now body p), updateFirst id (applyUpdate now body) store)

/-- Static `Project.findByIdAndDelete(id)`. -/
def Project.findByIdAndDelete (id : ObjectId) (store : Store) : Option Project × Store :=
  (Project.findById id store, deleteFirst id store)

/-! ## The route handlers (`routes/projects.js`) -/

/-- A JSON response body. `thrown` is `{ message: error.message }` for an error
the library throws outside validation: a value it cannot cast, an update it
refuses. -/
inductive Json where
  | null
  | project (p : Project)
  | projects (ps : List Project)
  | message (text : String)
  | validationError (errors : List ValidatorError)
  | thrown
deriving DecidableEq, Repr

/-- A response: HTTP status and body. -/
structure Response where
  status : Nat
  body : Json
deriving DecidableEq, Repr

/-- Call `res.json(project)` where `project` may be null. -/
def jsonOfDoc : Option Project → Json
  | some p => Json.project p
  | none => Json.null

/-- The query string of `GET /projects` (`req.query`). -/
structure ReqQuery where
  builder : Option String
  contractor : Option ObjectId
deriving DecidableEq, Repr

/-- Truthiness of a query-string value: present and not the empty string. -/
def truthyString : Option String → Option String
  | some s => if s = "" then none else some s
  | none => none

/-- Handler `router.get('/')`, on a cast contractor: a condition is added to
the query for each truthy parameter. -/
def router.get (strictQuery : Bool) (q : ReqQuery) (store : Store) : Response × Store :=
  let query : Filter :=
    { builder := truthyString q.builder, contractor := q.contractor }
  ({ status := 200, body := Json.projects (Project.find strictQuery query store) }, store)

/-- Handler `router.get('/:id')`, on a cast identifier. -/
def router.getById (id : ObjectId) (store : Store) : Response × Store :=
  match Project.findById id store with
  | none => ({ status := 404, body := Json.message "Project not found" }, store)
  | some project => ({ status := 200, body := Json.project project }, store)

/-- Handler `router.post('/')`, on a body that casts. -/
def router.post (env : Env) (body : Body) (store : Store) : Response × Store :=
  let project := Project.new env body
  match project.save env store with
  | Except.ok (newProject, store') => ({ status := 201, body := Json.project newProject }, store')
  | Except.error errors => ({ status := 400, body := Json.validationError errors }, store)

/-- Handler `router.put('/:id')`, on a cast identifier and a plain patch that
casts. -/
def router.put (env : Env) (id : ObjectId) (body : Body) (store : Store) : Response × Store :=
  let (project, store') := Project.findByIdAndUpdate env.now id body store
  ({ status := 200, body := jsonOfDoc project }, store')

/-- Handler `router.delete('/:id')`, on a cast identifier. -/
def router.delete (id : ObjectId) (store : Store) : Response × Store :=
  let (_, store') := Project.findByIdAndDelete id store
  ({ status := 200, body := Json.message "Project deleted" }, store')

/-- A request to the HTTP surface. -/
inductive Request where
  | list (q : ReqQuery)
  | get (id : ObjectId)
  | post (body : Body)
  | put (id : ObjectId) (body : Body)
  | delete (id : ObjectId)
deriving DecidableEq, Repr

/-- Dispatch of a request to its handler. -/
def handle (strictQuery : Bool) (env : Env) : Request → Store → Response × Store
  | Request.list q, store => router.get strictQuery q store
  | Request.get id, store => router.getById id store
  | Request.post body, store => router.post env body store
  | Request.put id body, store => router.put env id body store
  | Request.delete id, store => router.delete id store

/-- The store after serving a sequence of requests, one after the other. -/
def run (strictQuery : Bool) : List (Env × Request) → Store → Store
  | [], store => store
  | (env, r) :: rest, store => run strictQuery rest (handle strictQuery env r store).2

/-! ## Requests used as concrete inputs -/

/-- A body with the five required fields and nothing else. -/
def sampleBody : Body :=
  { Body.empty with
    title := some "Site Engineer", location := some "Pune",
    projectType := some "Commercial", employmentType := some "Contract",
    contractor := some 1 }

/-- The sample body with a caller-supplied `applicantsCount` and no workers. -/
def countBody : Body := { sampleBody with applicantsCount := some 5 }

/-- The sample body with the empty string as title. -/
def emptyTitleBody : Body := { sampleBody with title := some "" }

/-- The environment of the sample requests. -/
def env0 : Env := { now := 1000, oid := 7 }

/-- The environment of a later request. -/
def env1 : Env := { now := 2000, oid := 8 }

/-- A stored project whose status is completed. -/
def completedProject : Project :=
  (Project.new env0 { sampleBody with status := some "completed" }).stamped env0.now

/-- A patch that names only `status`, with the value active. -/
def reopenPatch : Body := { Body.empty with status := some "active" }

/-- A patch that names only `status`, with a value outside the enum. -/
def bogusStatusPatch : Body := { Body.empty with status := some "archived" }

/-- A stored project with one application, of worker 31, already accepted. -/
def acceptedProject : Project :=
  (Project.new env0 { sampleBody with
    workers := some [{ worker := some 31, status := some "accepted", appliedAt := some 900 }],
    applicantsCount := some 1 }).stamped env0.now

/-- A patch that names only `workers`: the application of worker 31, now
rejected. -/
def rejectPatch : Body :=
  { Body.empty with
    workers := some [{ worker := some 31, status := some "rejected", appliedAt := some 900 }] }

/-- A patch that names only `contractor`, with another contractor. -/
def contractorPatch : Body := { Body.empty with contractor := some 2 }

/-- A stored project with both dates of its timeline set. -/
def timelineProject : Project :=
  (Project.new env0 { sampleBody with
    timeline := some { startDate := some 100, endDate := some 200 } }).stamped env0.now

/-- A patch that names `timeline` with only its `startDate`. -/
def startDatePatch : Body :=
  { Body.empty with timeline := some { startDate := some 150, endDate := none } }

/-- Listing as the specification words it: the stored projects, in store
order, whose contractor equals the requested one when a contractor is given and
whose builder equals the requested one when a builder is given. A parameter is
given when it is present and not the empty string. -/
def specListProjects (contractor : Option ObjectId) (builder : Option String)
    (store : Store) : List Project :=
  store.filter (fun p =>
    decide ((∀ c, contractor = some c → p.contractor = some c) ∧
      (∀ b, builder = some b → b ≠ "" → p.builder = some b)))

/-- The unique index on `_id`: no two documents of the collection share an
identifier. -/
abbrev uniqueIds (store : Store) : Prop := (store.map (fun p => p._id)).Nodup

/-- The sample body without its location. -/
def noLocationBody : Body := { sampleBody with location := none }

/-- A second stored project, with identifier 8. -/
def otherProject : Project := (Project.new env1 sampleBody).stamped env1.now

/-! ## Predicates the properties are stated with -/

/-- The derived-counter condition on one document. -/
abbrev Project.countOk (p : Project) : Prop := p.applicantsCount = p.workers.length

/-- A request whose body, if it has one, names neither `workers` nor
`applicantsCount`. -/
def Request.countFree : Request → Prop
  | Request.post body => body.workers = none ∧ body.applicantsCount = none
  | Request.put _ body => body.workers = none ∧ body.applicantsCount = none
  | _ => True

/-- The requests that write to the store. -/
def Request.isMutating : Request → Bool
  | Request.post _ => true
  | Request.put _ _ => true
  | Request.delete _ => true
  | _ => false

/-- Whether a supplied value lies outside an enum; an absent value does not. -/
def outsideEnum (allowed : List String) : Option String → Bool
  | some v => !(allowed.contains v)
  | none => false

/-- One of the five required fields is missing from the body. -/
def Body.missingRequired (b : Body) : Bool :=
  b.title.isNone || b.location.isNone || b.projectType.isNone
    || b.contractor.isNone || b.employmentType.isNone

/-- A supplied enum field of the body holds a value outside its enum. -/
def Body.invalidEnum (b : Body) : Bool :=
  outsideEnum projectTypeEnum b.projectType
    || outsideEnum employmentTypeEnum b.employmentType
    || outsideEnum statusEnum b.status
    || (b.workers.getD []).any (fun a => outsideEnum workerStatusEnum a.status)

/-- A required free-text field (`title`, `location`) is supplied as the empty
string. -/
def Body.emptyRequired (b : Body) : Bool :=
  b.title == some "" || b.location == some ""


/-! ## JavaScript values of the pages (`src/pages`, `src/components`) -/

/-- A JavaScript value as the pages and the request bodies carry it: a
primitive or a plain object (an array being the object of its indices). A
number is an integer that a double holds exactly, an infinity, or NaN. -/
inductive JsValue where
  | undefined
  | null
  | bool (b : Bool)
  | str (s : String)
  | num (n : Int)
  | nan
  | obj (fields : List (String × JsValue))
  | infinity (negative : Bool)

/-- A plain object: its own properties in insertion order. -/
abbrev JsObject := List (String × JsValue)

/-- Property read `o.key`: the value of the property, `undefined` when the
object has none of that name. -/
def JsObject.get (o : JsObject) (key : String) : JsValue :=
  match o.find? (fun kv => kv.1 == key) with
  | some kv => kv.2
  | none => JsValue.undefined

/-- Property definition inside an object literal, `{ ...o, key: value }`: an
existing property takes the new value in place, a new one is added at the
end. -/
def JsObject.set : JsObject → String → JsValue → JsObject
  | [], key, value => [(key, value)]
  | kv :: rest, key, value =>
    if kv.1 = key then (key, value) :: rest else kv :: JsObject.set rest key value

/-- Whether the object has an own property of that name. -/
def JsObject.has (o : JsObject) (key : String) : Bool :=
  o.any (fun kv => kv.1 == key)

/-- Truthiness of a value (`ToBoolean`). -/
def JsValue.truthy : JsValue → Bool
  | JsValue.undefined => false
  | JsValue.null => false
  | JsValue.bool b => b
  | JsValue.str s => s != ""
  | JsValue.num n => n != 0
  | JsValue.nan => false
  | JsValue.obj _ => true
  | JsValue.infinity _ => true

/-- String conversion of a value inside a template literal (`ToString`); a
plain object prints as `[object Object]`. -/
def JsValue.toStr : JsValue → String
  | JsValue.undefined => "undefined"
  | JsValue.null => "null"
  | JsValue.bool b => if b then "true" else "false"
  | JsValue.str s => s
  | JsValue.num n => toString n
  | JsValue.nan => "NaN"
  | JsValue.obj _ => "[object Object]"
  | JsValue.infinity negative => if negative then "-Infinity" else "Infinity"

/-- Method `String.prototype.split` with a one-character separator: the
segments between the occurrences of the separator, at least one. -/
def splitOn (sep : Char) : List Char → List (List Char)
  | [] => [[]]
  | c :: cs =>
    if c = sep then [] :: splitOn sep cs
    else
      match splitOn sep cs with
      | seg :: segs => (c :: seg) :: segs
      | [] => [[c]]

/-- White space that `parseInt` skips at the start of its input. -/
def isWhiteSpace (c : Char) : Bool :=
  c.toNat ∈ [9, 10, 11, 12, 13, 32, 160, 5760, 8232, 8233, 8239, 8287, 12288, 65279]
    || (8192 ≤ c.toNat && c.toNat ≤ 8202)

/-- Value of a character as a digit, letters counting from ten. -/
def digitValue (c : Char) : Option Nat :=
  if 48 ≤ c.toNat ∧ c.toNat ≤ 57 then some (c.toNat - 48)
  else if 97 ≤ c.toNat ∧ c.toNat ≤ 122 then some (c.toNat - 97 + 10)
  else if 65 ≤ c.toNat ∧ c.toNat ≤ 90 then some (c.toNat - 65 + 10)
  else none

/-- The longest run of digits of the radix at the start of the input, as digit
values. -/
def takeDigits (radix : Nat) : List Char → List Nat
  | [] => []
  | c :: cs =>
    match digitValue c with
    | some d => if d < radix then d :: takeDigits radix cs else []
    | none => []

/-- The number a list of digit values writes in the radix. -/
def digitsValue (radix : Nat) (ds : List Nat) : Nat :=
  ds.foldl (fun acc d => acc * radix + d) 0

/-- The radix `parseInt` works in and the input after the radix opening: a `0x`
or `0X` opening selects radix 16, otherwise the radix is 10. -/
def stripRadix (s : List Char) : Nat × List Char :=
  match s with
  | '0' :: 'x' :: rest => (16, rest)
  | '0' :: 'X' :: rest => (16, rest)
  | _ => (10, s)

/-- How many low bits a number loses to fit the 53 bits of the significand of
a double: the least count of halvings that brings it below 2^53. The first
argument bounds the recursion. -/
def excessBits : Nat → Nat → Nat
  | 0, _ => 0
  | fuel + 1, n => if n < 9007199254740992 then 0 else excessBits fuel (n / 2) + 1

/-- The double nearest to a natural number, ties going to the even
significand: the number itself below 2^53, none when the result is beyond the
largest double (Infinity), which is when the rounded significand shifted back
reaches 2^1024. Eleven hundred halvings are enough to tell. -/
def roundDouble (n : Nat) : Option Nat :=
  if n < 9007199254740992 then some n
  else
    let e := excessBits 1100 n
    let q := n / 2 ^ e
    let r := n % 2 ^ e
    let half := 2 ^ (e - 1)
    let q' := if half < r ∨ (r = half ∧ q % 2 = 1) then q + 1 else q
    if (q' < 9007199254740992 ∧ e ≤ 971) ∨ e ≤ 970 then some (q' * 2 ^ e) else none

/-- The digits of `parseInt` once white space and sign are removed; no digit
gives NaN. The number the digits write is rounded to a double. -/
def parseDigits (sign : Int) (s : List Char) : JsValue :=
  match takeDigits (stripRadix s).1 (stripRadix s).2 with
  | [] => JsValue.nan
  | d :: ds =>
    match roundDouble (digitsValue (stripRadix s).1 (d :: ds)) with
    | some v => JsValue.num (sign * (v : Int))
    | none => JsValue.infinity (decide (sign < 0))

/-- Function `parseInt(string)` on the characters of its input, without a radix
argument. -/
def parseIntChars (s : List Char) : JsValue :=
  match s.dropWhile isWhiteSpace with
  | '-' :: rest => parseDigits (-1) rest
  | '+' :: rest => parseDigits 1 rest
  | rest => parseDigits 1 rest

/-- Function `parseInt(value)`: the value is converted to a string first. -/
def parseInt (v : JsValue) : JsValue := parseIntChars v.toStr.toList

/-- Element read `segments[i]` of an array of strings: `undefined` past the
end. -/
def segmentAt (segments : List (List Char)) (i : Nat) : JsValue :=
  match segments.get? i with
  | some seg => JsValue.str (String.mk seg)
  | none => JsValue.undefined

/-! ## The pages (`pages/ContractorDashboard.jsx`, `components/PostProjectForm.jsx`) -/

/-- Function `handleSubmit` of `ContractorDashboard`: the argument of its call to
`createProject`, or none when building the object throws before the call
(`user` is null, or `formData.hourlyRate` is not a string and has no
`split`). -/
def ContractorDashboard.handleSubmit (user : Option JsObject) (formData : JsObject) :
    Option JsObject :=
  match user with
  | none => none
  | some u =>
    match formData.get "hourlyRate" with
    | JsValue.str rate =>
      let segments := splitOn '-' rate.toList
      some (((((formData.set "status" (JsValue.str "active")).set "contractor" (u.get "_id")).set
        "employmentType" (JsValue.str "Contract")).set
        "timeline" (JsValue.obj
          [("startDate", formData.get "startDate"), ("endDate", formData.get "endDate")])).set
        "hourlyRate" (JsValue.obj
          [("min", parseInt (segmentAt segments 0)), ("max", parseInt (segmentAt segments 1))]))
    | _ => none

/-- What one run of `handleApplyNow` does: the arguments of its calls to
`createApplication`, the route it navigates to, the title of the toast. -/
structure ApplyOutcome where
  submitted : List JsObject
  navigatedTo : Option String
  toast : String

/-- The cover letter of `handleApplyNow`, a template literal. -/
def coverLetter (project user : JsObject) : String :=
  "I am interested in working on your project \"" ++ (project.get "title").toStr
    ++ "\". I have " ++ (user.get "yearsOfExperience").toStr
    ++ " years of experience in " ++ (user.get "businessType").toStr
    ++ ". My business name is " ++ (user.get "businessName").toStr
    ++ " and I am licensed (License #: " ++ (user.get "licenseNumber").toStr ++ ")."

/-- The object `applicationData` that `handleApplyNow` builds: the application
with a snapshot of the profile of the user under `contractorDetails`. -/
def applicationData (projectId : String) (project user : JsObject) : JsObject :=
  [("project", JsValue.str projectId),
   ("contractor", user.get "_id"),
   ("status", JsValue.str "pending"),
   ("coverLetter", JsValue.str (coverLetter project user)),
   ("expectedRate", JsValue.num 35),
   ("contractorDetails", JsValue.obj
     [("businessName", user.get "businessName"),
      ("businessType", user.get "businessType"),
      ("yearsOfExperience", user.get "yearsOfExperience"),
      ("licenseNumber", user.get "licenseNumber"),
      ("insuranceInfo", user.get "insuranceInfo"),
      ("projectTypes", user.get "projectTypes"),
      ("address", user.get "address"),
      ("phoneNumber", user.get "phoneNumber"),
      ("email", user.get "email")])]

/-- Function `handleApplyNow` of `ContractorDashboard`, for a project identifier
that is a string. `resolves` says whether the promise of `createApplication`
resolves. -/
def ContractorDashboard.handleApplyNow (user : Option JsObject) (projects : List JsObject)
    (projectId : String) (resolves : Bool) : ApplyOutcome :=
  match user with
  | none =>
    { submitted := [], navigatedTo := some "/login?role=contractor",
      toast := "Authentication Required" }
  | some u =>
    match projects.find? (fun p =>
        match p.get "_id" with
        | JsValue.str s => s == projectId
        | _ => false) with
    | none => { submitted := [], navigatedTo := none, toast := "Error" }
    | some project =>
      { submitted := [applicationData projectId project u], navigatedTo := none,
        toast := if resolves then "Success" else "Error" }

/-- Function `handleSubmit` of `PostProjectForm`: the body of its call to
`api.post` on `/projects`, or none when `user` is null and reading `user._id`
throws. `isoNow` is `new Date().toISOString()`. -/
def PostProjectForm.handleSubmit (user : Option JsObject) (isoNow : String)
    (formData : JsObject) : Option JsObject :=
  match user with
  | none => none
  | some u =>
    some
      [("title", formData.get "title"),
       ("jobDescription", formData.get "jobDescription"),
       ("location", formData.get "location"),
       ("projectType", formData.get "projectType"),
       ("status", JsValue.str "active"),
       ("postedBy", u.get "_id"),
       ("postedByRole", JsValue.str "Builder"),
       ("employmentType", JsValue.str "Contract"),
       ("hourlyRate", formData.get "hourlyRate"),
       ("timeline", formData.get "timeline"),
       ("expiresAfter", JsValue.str "30"),
       ("company",
         if (u.get "businessName").truthy then u.get "businessName"
         else JsValue.str "Your Company"),
       ("postedDate", JsValue.str isoNow)]

/-- The casts of the model layer from a JSON value to the type of a schema
path; each gives none for a value it leaves unset. They belong to the library
and are parameters here. -/
structure Casts where
  string : JsValue → Option String
  number : JsValue → Option Int
  objectId : JsValue → Option ObjectId
  timeline : JsValue → Option Timeline
  hourlyRate : JsValue → Option HourlyRate
  workers : JsValue → Option (List ApplicationInput)

/-- The request body the model reads from a payload: each declared path cast
from the property of that name, every other property dropped (strict mode). -/
def toBody (casts : Casts) (payload : JsObject) : Body :=
  { title := casts.string (payload.get "title"),
    description := casts.string (payload.get "description"),
    location := casts.string (payload.get "location"),
    projectType := casts.string (payload.get "projectType"),
    timeline := casts.timeline (payload.get "timeline"),
    hourlyRate := casts.hourlyRate (payload.get "hourlyRate"),
    status := casts.string (payload.get "status"),
    contractor := casts.objectId (payload.get "contractor"),
    workers := casts.workers (payload.get "workers"),
    employmentType := casts.string (payload.get "employmentType"),
    applicantsCount := casts.number (payload.get "applicantsCount"),
    progress := casts.number (payload.get "progress") }

/-- A cast layer used as a concrete instance: strings and integers as they
are, nothing else. -/
def plainCasts : Casts :=
  { string := fun v => match v with
      | JsValue.str s => some s
      | _ => none,
    number := fun v => match v with
      | JsValue.num n => some n
      | _ => none,
    objectId := fun v => match v with
      | JsValue.num n => some n.toNat
      | _ => none,
    timeline := fun _ => none,
    hourlyRate := fun _ => none,
    workers := fun _ => none }

/-- Whether a character is one of the ten decimal digits. -/
def isDecimalDigit (c : Char) : Bool := 48 ≤ c.toNat && c.toNat ≤ 57

/-- The number a run of decimal digits writes. -/
def decimalValue (ds : List Char) : Nat :=
  digitsValue 10 (ds.map (fun c => c.toNat - 48))

/-- A logged-in user. -/
def sampleUser : JsObject :=
  [("_id", JsValue.str "u1"), ("businessName", JsValue.str "Acme Build"),
   ("businessType", JsValue.str "Masonry"), ("yearsOfExperience", JsValue.num 12),
   ("licenseNumber", JsValue.str "LIC-77")]

/-- Form data of the dashboard dialog, with an employment type and a rate whose
first number is the larger. -/
def sampleForm : JsObject :=
  [("title", JsValue.str "Site Engineer"), ("projectType", JsValue.str "Commercial"),
   ("location", JsValue.str "Pune"), ("hourlyRate", JsValue.str "40-20"),
   ("employmentType", JsValue.str "Full-time"), ("status", JsValue.str "draft"),
   ("contractor", JsValue.str "someone")]

/-- A body accepted by the create handler whose hourlyRate has min above
max. -/
def invertedRateBody : Body :=
  { sampleBody with hourlyRate := some { min := some 40, max := some 20 } }

/-- The state of `PostProjectForm` after typing a title, a location and a
rate. -/
def builderForm : JsObject :=
  [("title", JsValue.str "Warehouse"), ("location", JsValue.str "Pune"),
   ("projectType", JsValue.str "Commercial"), ("hourlyRate", JsValue.str "20-30"),
   ("jobDescription", JsValue.str "Steel frame"), ("timeline", JsValue.str "3 months")]

/-- A loaded project list of one project, with identifier p1. -/
def loadedProjects : List JsObject :=
  [[("_id", JsValue.str "p1"), ("title", JsValue.str "Warehouse")]]

/-! ## The requests as they arrive

The handlers receive strings in the URL and the query and a JSON object as
body, and hand them to library functions that cast them. The casts are not part
of the repository: they are parameters (`Library`). On an identifier that casts
and a body read as a typed plain body, a handler is the function of the same
route above. -/

/-- How the library reads the body of `findByIdAndUpdate`. -/
inductive UpdateReading where
  /-- The call throws: a value cannot be cast, or the update is refused. -/
  | rejected
  /-- The body has top-level field names only (no update operator, no dotted
  key, no null) and every value casts: the update is `$set` of the cast patch. -/
  | plain (patch : Body)
  /-- Any other update (operators such as `$set`, `$push`, `$inc`, `$unset`,
  dotted keys, null values), by its effect on the matched document at a given
  time. -/
  | operators (effect : Date → Project → Project)

/-- The library functions the handlers rely on, whose source is not in the
repository. -/
structure Library where
  /-- Cast of a string of the URL or the query to an identifier; none when the
  cast throws. -/
  castObjectId : String → Option ObjectId
  /-- Constructor `new Project(body)` as far as casting goes: the typed body the
  document is built from, none when a value cannot be cast (reported by `save`
  as a validation error). -/
  readDocument : JsObject → Option Body
  /-- Cast of the body of an update. -/
  readUpdate : JsObject → UpdateReading
  /-- The `strictQuery` option in force. -/
  strictQuery : Bool

/-- Handler `router.get('/')` on the query string as it arrives: a condition is
added for each truthy parameter, and a contractor that cannot be cast makes
`find` throw into the `catch`, which answers 500. -/
def http.getProjects (lib : Library) (builder contractor : Option String) (store : Store) :
    Response × Store :=
  match truthyString contractor with
  | none => router.get lib.strictQuery { builder := builder, contractor := none } store
  | some c =>
    match lib.castObjectId c with
    | none => ({ status := 500, body := Json.thrown }, store)
    | some oid =>
      router.get lib.strictQuery { builder := builder, contractor := some oid } store

/-- Handler `router.get('/:id')` on the identifier as it arrives: an identifier
that cannot be cast makes `findById` throw into the `catch`, which answers
500. -/
def http.getProject (lib : Library) (id : String) (store : Store) : Response × Store :=
  match lib.castObjectId id with
  | none => ({ status := 500, body := Json.thrown }, store)
  | some oid => router.getById oid store

/-- Handler `router.post('/')` on the body as it arrives: a value that cannot
be cast makes `save` throw into the `catch`, which answers 400. -/
def http.postProject (lib : Library) (env : Env) (payload : JsObject) (store : Store) :
    Response × Store :=
  match lib.readDocument payload with
  | none => ({ status := 400, body := Json.thrown }, store)
  | some body => router.post env body store

/-- The effect of an update on a document, with its `_id` kept: the store
never changes the `_id` of a document. -/
def keepId (effect : Project → Project) (p : Project) : Project :=
  { effect p with _id := p._id }

/-- Handler `router.put('/:id')` on the identifier and the body as they arrive:
an identifier or a body that cannot be cast makes `findByIdAndUpdate` throw into
the `catch`, which answers 400, before any document is touched. -/
def http.putProject (lib : Library) (env : Env) (id : String) (payload : JsObject)
    (store : Store) : Response × Store :=
  match lib.castObjectId id with
  | none => ({ status := 400, body := Json.thrown }, store)
  | some oid =>
    match lib.readUpdate payload with
    | UpdateReading.rejected => ({ status := 400, body := Json.thrown }, store)
    | UpdateReading.plain patch => router.put env oid patch store
    | UpdateReading.operators effect =>
      match Project.findById oid store with
      | none => ({ status := 200, body := Json.null }, store)
      | some p =>
        ({ status := 200, body := Json.project (keepId (effect env.now) p) },
          updateFirst oid (keepId (effect env.now)) store)

/-- Handler `router.delete('/:id')` on the identifier as it arrives: an
identifier that cannot be cast makes `findByIdAndDelete` throw into the `catch`,
which answers 500. -/
def http.deleteProject (lib : Library) (id : String) (store : Store) : Response × Store :=
  match lib.castObjectId id with
  | none => ({ status := 500, body := Json.thrown }, store)
  | some oid => router.delete oid store

/-- A request to the HTTP surface, as it arrives. -/
inductive HttpRequest where
  | list (builder contractor : Option String)
  | get (id : String)
  | post (payload : JsObject)
  | put (id : String) (payload : JsObject)
  | delete (id : String)

/-- Dispatch of an arriving request to its handler. -/
def http.handle (lib : Library) (env : Env) : HttpRequest → Store → Response × Store
  | HttpRequest.list builder contractor, store => http.getProjects lib builder contractor store
  | HttpRequest.get id, store => http.getProject lib id store
  | HttpRequest.post payload, store => http.postProject lib env payload store
  | HttpRequest.put id payload, store => http.putProject lib env id payload store
  | HttpRequest.delete id, store => http.deleteProject lib id store

/-- The store after serving a sequence of arriving requests. -/
def http.run (lib : Library) : List (Env × HttpRequest) → Store → Store
  | [], store => store
  | (env, r) :: rest, store => http.run lib rest (http.handle lib env r store).2

/-! ## A library for the sample requests -/

/-- Whether a character is a hexadecimal digit. -/
def isHexDigit (c : Char) : Bool :=
  match digitValue c with
  | some d => d < 16
  | none => false

/-- Cast of a string to an identifier: a string of 24 hexadecimal digits is the
identifier it writes, any other string throws. -/
def castHex (s : String) : Option ObjectId :=
  if s.length = 24 ∧ s.toList.all isHexDigit = true then
    some (digitsValue 16 (takeDigits 16 s.toList))
  else none

/-- A non-negative integer read as a date. -/
def dateOf : JsValue → Option Date
  | JsValue.num n => if 0 ≤ n then some n.toNat else none
  | _ => none

/-- An integer read as a number. -/
def numberOf : JsValue → Option Int
  | JsValue.num n => some n
  | _ => none

/-- A string read as it is. -/
def stringOf : JsValue → Option String
  | JsValue.str s => some s
  | _ => none

/-- A string of 24 hexadecimal digits read as an identifier. -/
def objectIdOf : JsValue → Option ObjectId
  | JsValue.str s => castHex s
  | _ => none

/-- An object read as an element of `workers`. -/
def applicationOf : JsValue → ApplicationInput
  | JsValue.obj fields =>
    { worker := objectIdOf (JsObject.get fields "worker"),
      status := stringOf (JsObject.get fields "status"),
      appliedAt := dateOf (JsObject.get fields "appliedAt") }
  | _ => { worker := none, status := none, appliedAt := none }

/-- The casts of the sample library: a string at a String path, an integer at a
Number path, 24 hexadecimal digits at an ObjectId path, an object of integers
at `timeline` and `hourlyRate`, the object of its indices at `workers`. -/
def sampleCasts : Casts :=
  { string := stringOf,
    number := numberOf,
    objectId := objectIdOf,
    timeline := fun v => match v with
      | JsValue.obj fields =>
        some { startDate := dateOf (JsObject.get fields "startDate"),
               endDate := dateOf (JsObject.get fields "endDate") }
      | _ => none,
    hourlyRate := fun v => match v with
      | JsValue.obj fields =>
        some { min := numberOf (JsObject.get fields "min"),
               max := numberOf (JsObject.get fields "max") }
      | _ => none,
    workers := fun v => match v with
      | JsValue.obj items => some (items.map (fun kv => applicationOf kv.2))
      | _ => none }

/-- Whether a property is supplied and the cast read nothing from it. -/
def unread (supplied : JsValue) (read : Bool) : Bool :=
  match supplied with
  | JsValue.undefined => false
  | _ => !read

/-- Whether some declared path of the payload holds a value the sample casts
cannot read. -/
def sampleUncastable (payload : JsObject) : Bool :=
  ["title", "description", "location", "projectType", "status", "employmentType"].any
      (fun key => unread (payload.get key) (sampleCasts.string (payload.get key)).isSome)
    || ["applicantsCount", "progress"].any
      (fun key => unread (payload.get key) (sampleCasts.number (payload.get key)).isSome)
    || unread (payload.get "contractor") (sampleCasts.objectId (payload.get "contractor")).isSome
    || unread (payload.get "timeline") (sampleCasts.timeline (payload.get "timeline")).isSome
    || unread (payload.get "hourlyRate")
      (sampleCasts.hourlyRate (payload.get "hourlyRate")).isSome
    || unread (payload.get "workers") (sampleCasts.workers (payload.get "workers")).isSome

/-- Whether a key is an update operator or a dotted path. -/
def isOperatorKey (key : String) : Bool :=
  key.toList.head? == some '$' || key.toList.contains '.'

/-- The library used at the sample requests. Of the updates that are not plain
it reads one, `{ $inc: { applicantsCount: n } }`, and refuses the others; none
of the other sample requests has an operator or a dotted key. -/
def sampleLibrary : Library :=
  { castObjectId := castHex,
    readDocument := fun payload =>
      if sampleUncastable payload then none else some (toBody sampleCasts payload),
    readUpdate := fun payload =>
      match payload with
      | [("$inc", JsValue.obj [("applicantsCount", JsValue.num n)])] =>
        UpdateReading.operators (fun now p =>
          { p with applicantsCount := p.applicantsCount + n, updatedAt := some now })
      | _ =>
        if payload.any (fun kv => isOperatorKey kv.1) || sampleUncastable payload then
          UpdateReading.rejected
        else UpdateReading.plain (toBody sampleCasts payload),
    strictQuery := false }

/-- Scenario A of the specification as a request body, contractor `C1`. -/
def scenarioA : JsObject :=
  [("title", JsValue.str "Site Engineer"), ("location", JsValue.str "Pune"),
   ("projectType", JsValue.str "Commercial"), ("employmentType", JsValue.str "Contract"),
   ("contractor", JsValue.str "C1")]

/-- Scenario A with a contractor of 24 hexadecimal digits. -/
def scenarioAHex : JsObject :=
  [("title", JsValue.str "Site Engineer"), ("location", JsValue.str "Pune"),
   ("projectType", JsValue.str "Commercial"), ("employmentType", JsValue.str "Contract"),
   ("contractor", JsValue.str "0000000000000000000000c1")]

/-- The identifier 7 as it is written in a URL. -/
def id7 : String := "000000000000000000000007"

/-- The identifier 9 as it is written in a URL. -/
def id9 : String := "000000000000000000000009"

/-! ## Predicates on the arriving requests -/

/-- An arriving request whose body, as the library reads it, sets neither
`workers` nor `applicantsCount`: a POST whose document has neither, a PUT that
is rejected or is a plain patch with neither. An update with operators is not
such a request. -/
def HttpRequest.countFree (lib : Library) : HttpRequest → Prop
  | HttpRequest.post payload =>
    ∀ body, lib.readDocument payload = some body →
      body.workers = none ∧ body.applicantsCount = none
  | HttpRequest.put _ payload =>
    lib.readUpdate payload = UpdateReading.rejected ∨
      ∃ patch, lib.readUpdate payload = UpdateReading.plain patch ∧
        patch.workers = none ∧ patch.applicantsCount = none
  | _ => True

/-- An arriving request that leaves alone the fields `names` picks out in the
project `oid`: it is not a DELETE of that project, and if it is a PUT of that
project it is rejected or is a plain patch that names none of the fields. A PUT
of that project with operators is not such a request. -/
def HttpRequest.spares (lib : Library) (oid : ObjectId) (names : Body → Bool) :
    HttpRequest → Prop
  | HttpRequest.delete id => lib.castObjectId id ≠ some oid
  | HttpRequest.put id payload =>
    lib.castObjectId id = some oid →
      lib.readUpdate payload = UpdateReading.rejected ∨
        ∃ patch, lib.readUpdate payload = UpdateReading.plain patch ∧ names patch = false
  | _ => True

/-- A patch that would pass the validators of the fields it names: no required
free-text field empty, no enum field outside its enum. -/
def Body.validPatch (b : Body) : Bool := !(b.emptyRequired || b.invalidEnum)

/-- The contractor condition of a listing: no condition when the parameter is
absent or empty, the cast identifier when it casts, none when the cast
throws. -/
def contractorCondition (lib : Library) (contractor : Option String) :
    Option (Option ObjectId) :=
  match truthyString contractor with
  | none => some none
  | some c => (lib.castObjectId c).map some

/-- The builder condition that reaches the store: dropped when `strictQuery`
is on, since the schema has no such path. -/
def builderCondition (lib : Library) (builder : Option String) : Option String :=
  if lib.strictQuery then none else builder

/-! ## Lemmas on the collection -/

theorem mem_deleteFirst {id : ObjectId} {store : Store} {p : Project}
    (h : p ∈ deleteFirst id store) : p ∈ store := by
  induction store with
  | nil => simp [deleteFirst] at h
  | cons q rest ih =>
    unfold deleteFirst at h
    split at h
    · exact List.mem_cons_of_mem _ h
    · rcases List.mem_cons.mp h with h | h
      · exact h ▸ List.mem_cons_self _ _
      · exact List.mem_cons_of_mem _ (ih h)

theorem mem_updateFirst {id : ObjectId} {f : Project → Project} {store : Store} {p : Project}
    (h : p ∈ updateFirst id f store) : p ∈ store ∨ ∃ q ∈ store, p = f q := by
  induction store with
  | nil => simp [updateFirst] at h
  | cons q rest ih =>
    unfold updateFirst at h
    split at h
    · rcases List.mem_cons.mp h with h | h
      · exact Or.inr ⟨q, List.mem_cons_self _ _, h⟩
      · exact Or.inl (List.mem_cons_of_mem _ h)
    · rcases List.mem_cons.mp h with h | h
      · exact Or.inl (h ▸ List.mem_cons_self _ _)
      · rcases ih h with h | ⟨r, hr, e⟩
        · exact Or.inl (List.mem_cons_of_mem _ h)
        · exact Or.inr ⟨r, List.mem_cons_of_mem _ hr, e⟩

/-- The create handler in closed form: 201 with the saved document appended
when no validator fails, otherwise 400 with the store untouched. -/
theorem router_post_eq (env : Env) (body : Body) (store : Store) :
    router.post env body store =
      if (Project.new env body).validate = [] then
        ({ status := 201, body := Json.project ((Project.new env body).stamped env.now) },
          store ++ [(Project.new env body).stamped env.now])
      else
        ({ status := 400, body := Json.validationError (Project.new env body).validate },
          store) := by
  cases h : (Project.new env body).validate <;> simp [router.post, Project.save, h]

/-- The store after a POST: unchanged on a validation error, otherwise the
saved document appended. -/
theorem post_store (env : Env) (body : Body) (store : Store) :
    (router.post env body store).2 = store ∨
      (router.post env body store).2 = store ++ [(Project.new env body).stamped env.now] := by
  rw [router_post_eq]
  split
  · exact Or.inr rfl
  · exact Or.inl rfl

/-- The store after a PUT: unchanged, or the first match updated. -/
theorem put_store (env : Env) (id : ObjectId) (body : Body) (store : Store) :
    (router.put env id body store).2 = store ∨
      (router.put env id body store).2 = updateFirst id (applyUpdate env.now body) store := by
  unfold router.put Project.findByIdAndUpdate
  cases Project.findById id store with
  | none => exact Or.inl rfl
  | some p => exact Or.inr rfl

/-! ## Lookup by identifier after a request -/

theorem applyUpdate_id (now : Date) (body : Body) (p : Project) :
    (applyUpdate now body p)._id = p._id := rfl

theorem findById_append_of_some {id : ObjectId} {store : Store} {p : Project}
    (h : Project.findById id store = some p) (extra : Store) :
    Project.findById id (store ++ extra) = some p := by
  unfold Project.findById at h ⊢
  rw [List.find?_append, h]
  rfl

theorem findById_cons (id : ObjectId) (q : Project) (rest : Store) :
    Project.findById id (q :: rest) = if q._id = id then some q else Project.findById id rest := by
  unfold Project.findById
  rw [List.find?_cons]
  by_cases h : q._id = id
  · simp [h]
  · have : (q._id == id) = false := by simpa using h
    simp [h, this]

theorem findById_updateFirst (id id' : ObjectId) (f : Project → Project)
    (hf : ∀ q, (f q)._id = q._id) (store : Store) :
    Project.findById id (updateFirst id' f store) =
      if id' = id then (Project.findById id store).map f else Project.findById id store := by
  induction store with
  | nil => simp [updateFirst, Project.findById]
  | cons q rest ih =>
    by_cases hq : q._id = id' <;> by_cases hi : id' = id
    · subst hi
      simp [updateFirst, hq, findById_cons, hf]
    · have : ¬ q._id = id := fun h => hi (hq ▸ h)
      simp [updateFirst, hq, hi, this, findById_cons, hf]
    · subst hi
      simp only [if_true] at ih
      simp [updateFirst, hq, findById_cons, ih]
    · simp only [hi, if_false] at ih
      simp [updateFirst, hq, hi, findById_cons, ih]

theorem findById_deleteFirst_of_ne {id id' : ObjectId} (h : id' ≠ id) (store : Store) :
    Project.findById id (deleteFirst id' store) = Project.findById id store := by
  induction store with
  | nil => rfl
  | cons q rest ih =>
    by_cases hq : q._id = id'
    · have : ¬ q._id = id := fun e => h (hq ▸ e)
      simp [deleteFirst, hq, h, findById_cons]
    · simp [deleteFirst, hq, findById_cons, ih]

/-- One request that does not delete the project `id` leaves it in the store;
only a PUT addressed to it changes it, by `applyUpdate`. -/
theorem findById_handle (strictQuery : Bool) (env : Env) (r : Request) (store : Store)
    (id : ObjectId) (p : Project)
    (hp : Project.findById id store = some p) (hdel : r ≠ Request.delete id) :
    Project.findById id (handle strictQuery env r store).2 = some p ∨
      ∃ body, r = Request.put id body ∧
        Project.findById id (handle strictQuery env r store).2 =
          some (applyUpdate env.now body p) := by
  cases r with
  | list q => exact Or.inl hp
  | get id' =>
    left
    simp only [handle, router.getById]
    split <;> exact hp
  | post body =>
    left
    rcases post_store env body store with h | h
    · simp only [handle, h]; exact hp
    · simp only [handle, h]; exact findById_append_of_some hp _
  | put id' body =>
    by_cases hi : id' = id
    · subst hi
      right
      refine ⟨body, rfl, ?_⟩
      simp only [handle, router.put, Project.findByIdAndUpdate, hp]
      rw [findById_updateFirst _ _ _ (applyUpdate_id _ _), if_pos rfl, hp]
      rfl
    · left
      rcases put_store env id' body store with h | h
      · simp only [handle, h]; exact hp
      · simp only [handle, h]
        rw [findById_updateFirst _ _ _ (applyUpdate_id _ _), if_neg hi]
        exact hp
  | delete id' =>
    left
    have hi : id' ≠ id := fun e => hdel (e ▸ rfl)
    simp only [handle, router.delete, Project.findByIdAndDelete]
    rw [findById_deleteFirst_of_ne hi]
    exact hp

/-- A sequence of requests that never deletes the project `id`, and whose PUTs
addressed to it all leave the projection `proj` of a document as it is, leaves
that projection of the stored project unchanged. -/
theorem findById_run {α : Type} (strictQuery : Bool) (proj : Project → α) (id : ObjectId) :
    ∀ (rs : List (Env × Request)) (store : Store) (p : Project),
      Project.findById id store = some p →
      (∀ er ∈ rs, er.2 ≠ Request.delete id ∧
        ∀ body, er.2 = Request.put id body →
          ∀ q, proj (applyUpdate er.1.now body q) = proj q) →
      ∃ p', Project.findById id (run strictQuery rs store) = some p' ∧ proj p' = proj p := by
  intro rs
  induction rs with
  | nil => intro store p hp _; exact ⟨p, hp, rfl⟩
  | cons er rest ih =>
    intro store p hp h
    obtain ⟨env, r⟩ := er
    have hr := h (env, r) (List.mem_cons_self _ _)
    have hrest : ∀ er ∈ rest, er.2 ≠ Request.delete id ∧
        ∀ body, er.2 = Request.put id body →
          ∀ q, proj (applyUpdate er.1.now body q) = proj q :=
      fun er her => h er (List.mem_cons_of_mem _ her)
    rcases findById_handle strictQuery env r store id p hp hr.1 with h1 | ⟨body, hb, h1⟩
    · exact ih _ p h1 hrest
    · obtain ⟨p', hp', e⟩ := ih _ _ h1 hrest
      exact ⟨p', hp', e.trans (hr.2 body hb p)⟩

/-- The update handler answers 200 whatever the identifier and the patch. -/
theorem router_put_status (env : Env) (id : ObjectId) (body : Body) (store : Store) :
    (router.put env id body store).1.status = 200 := by
  unfold router.put Project.findByIdAndUpdate
  cases Project.findById id store <;> rfl

/-- The update handler on a project that exists: 200 with the updated document,
which replaces the first match in the store. -/
theorem router_put_of_some (env : Env) (id : ObjectId) (body : Body) (store : Store)
    (p : Project) (hp : Project.findById id store = some p) :
    router.put env id body store =
      ({ status := 200, body := Json.project (applyUpdate env.now body p) },
        updateFirst id (applyUpdate env.now body) store) := by
  simp [router.put, Project.findByIdAndUpdate, hp, jsonOfDoc]

/-! ## Lemmas on the arriving requests -/

theorem router_get_store (strictQuery : Bool) (q : ReqQuery) (store : Store) :
    (router.get strictQuery q store).2 = store := rfl

theorem router_getById_store (oid : ObjectId) (store : Store) :
    (router.getById oid store).2 = store := by
  unfold router.getById
  split <;> rfl

theorem http_getProjects_store (lib : Library) (builder contractor : Option String)
    (store : Store) : (http.getProjects lib builder contractor store).2 = store := by
  unfold http.getProjects
  split
  · rfl
  · split <;> rfl

theorem http_getProject_store (lib : Library) (id : String) (store : Store) :
    (http.getProject lib id store).2 = store := by
  unfold http.getProject
  split
  · rfl
  · exact router_getById_store _ _

/-- The update with operators keeps the identifier of the document. -/
theorem keepId_id (effect : Project → Project) (q : Project) :
    (keepId effect q)._id = q._id := rfl

/-- The update handler on an identifier that casts and an update with
operators. -/
theorem http_putProject_operators (lib : Library) (env : Env) (id : String)
    (payload : JsObject) (store : Store) (oid : ObjectId) (effect : Date → Project → Project)
    (hid : lib.castObjectId id = some oid)
    (hread : lib.readUpdate payload = UpdateReading.operators effect) :
    http.putProject lib env id payload store =
      match Project.findById oid store with
      | none => ({ status := 200, body := Json.null }, store)
      | some p =>
        ({ status := 200, body := Json.project (keepId (effect env.now) p) },
          updateFirst oid (keepId (effect env.now)) store) := by
  simp only [http.putProject, hid, hread]

/-- The update handler on an identifier that casts and a plain patch. -/
theorem http_putProject_plain (lib : Library) (env : Env) (id : String)
    (payload : JsObject) (store : Store) (oid : ObjectId) (patch : Body)
    (hid : lib.castObjectId id = some oid)
    (hread : lib.readUpdate payload = UpdateReading.plain patch) :
    http.putProject lib env id payload store = router.put env oid patch store := by
  simp only [http.putProject, hid, hread]

/-- The update handler on a body the library rejects. -/
theorem http_putProject_rejected (lib : Library) (env : Env) (id : String)
    (payload : JsObject) (store : Store)
    (hread : lib.readUpdate payload = UpdateReading.rejected) :
    http.putProject lib env id payload store =
      ({ status := 400, body := Json.thrown }, store) := by
  unfold http.putProject
  cases lib.castObjectId id with
  | none => rfl
  | some oid => simp only [hread]

/-- The update handler on an identifier that casts, a plain patch and a project
that exists: 200 with the patched document, which the store then holds under
the identifier. -/
theorem http_putProject_plain_found (lib : Library) (env : Env) (id : String)
    (payload : JsObject) (store : Store) (oid : ObjectId) (patch : Body) (p : Project)
    (hid : lib.castObjectId id = some oid)
    (hread : lib.readUpdate payload = UpdateReading.plain patch)
    (hp : Project.findById oid store = some p) :
    (http.putProject lib env id payload store).1 =
      { status := 200, body := Json.project (applyUpdate env.now patch p) } ∧
    Project.findById oid (http.putProject lib env id payload store).2 =
      some (applyUpdate env.now patch p) := by
  rw [http_putProject_plain lib env id payload store oid patch hid hread,
    router_put_of_some env oid patch store p hp]
  refine ⟨rfl, ?_⟩
  simp only []
  rw [findById_updateFirst _ _ _ (applyUpdate_id _ _), if_pos rfl, hp]
  rfl

/-- One arriving request that does not delete the project `oid` leaves it in
the store; only a PUT addressed to it changes it, by the plain patch or by the
effect of the operators. -/
theorem findById_http_handle (lib : Library) (env : Env) (r : HttpRequest) (store : Store)
    (oid : ObjectId) (p : Project) (hp : Project.findById oid store = some p)
    (hdel : ∀ id, r = HttpRequest.delete id → lib.castObjectId id ≠ some oid) :
    Project.findById oid (http.handle lib env r store).2 = some p ∨
    (∃ id payload patch, r = HttpRequest.put id payload ∧ lib.castObjectId id = some oid ∧
      lib.readUpdate payload = UpdateReading.plain patch ∧
      Project.findById oid (http.handle lib env r store).2 =
        some (applyUpdate env.now patch p)) ∨
    (∃ id payload effect, r = HttpRequest.put id payload ∧ lib.castObjectId id = some oid ∧
      lib.readUpdate payload = UpdateReading.operators effect) := by
  cases r with
  | list builder contractor =>
    left
    simp only [http.handle, http_getProjects_store]
    exact hp
  | get id =>
    left
    simp only [http.handle, http_getProject_store]
    exact hp
  | post payload =>
    left
    simp only [http.handle, http.postProject]
    cases lib.readDocument payload with
    | none => exact hp
    | some body =>
      rcases findById_handle false env (Request.post body) store oid p hp (by simp) with h | h
      · exact h
      · obtain ⟨b, hb, -⟩ := h
        cases hb
  | put id payload =>
    simp only [http.handle]
    cases hid : lib.castObjectId id with
    | none =>
      left
      simp only [http.putProject, hid]
      exact hp
    | some oid' =>
      cases hread : lib.readUpdate payload with
      | rejected =>
        left
        rw [http_putProject_rejected lib env id payload store hread]
        exact hp
      | plain patch =>
        rw [http_putProject_plain lib env id payload store oid' patch hid hread]
        rcases findById_handle false env (Request.put oid' patch) store oid p hp (by simp)
          with h | ⟨b, hb, h⟩
        · exact Or.inl h
        · cases hb
          exact Or.inr (Or.inl ⟨id, payload, patch, rfl, hid, hread, h⟩)
      | operators effect =>
        by_cases e : oid' = oid
        · subst e
          exact Or.inr (Or.inr ⟨id, payload, effect, rfl, hid, hread⟩)
        · left
          rw [http_putProject_operators lib env id payload store oid' effect hid hread]
          cases hfind : Project.findById oid' store with
          | none => exact hp
          | some q =>
            simp only []
            rw [findById_updateFirst _ _ _ (keepId_id (effect env.now)), if_neg e]
            exact hp
  | delete id =>
    left
    simp only [http.handle, http.deleteProject]
    cases hid : lib.castObjectId id with
    | none => exact hp
    | some oid' =>
      have hne : oid' ≠ oid := fun e => hdel id rfl (by rw [hid, e])
      simp only [router.delete, Project.findByIdAndDelete]
      rw [findById_deleteFirst_of_ne hne]
      exact hp

/-- A sequence of arriving requests each of which spares the fields `names` of
the project `oid` leaves every projection of the project that a plain patch
naming none of those fields leaves alone. -/
theorem findById_http_run {α : Type} (lib : Library) (proj : Project → α) (oid : ObjectId)
    (names : Body → Bool)
    (hproj : ∀ now patch q, names patch = false → proj (applyUpdate now patch q) = proj q) :
    ∀ (rs : List (Env × HttpRequest)) (store : Store) (p : Project),
      Project.findById oid store = some p →
      (∀ er ∈ rs, er.2.spares lib oid names) →
      ∃ p', Project.findById oid (http.run lib rs store) = some p' ∧ proj p' = proj p := by
  intro rs
  induction rs with
  | nil => intro store p hp _; exact ⟨p, hp, rfl⟩
  | cons er rest ih =>
    intro store p hp h
    obtain ⟨env, r⟩ := er
    have hr : r.spares lib oid names := h (env, r) (List.mem_cons_self _ _)
    have hrest : ∀ er ∈ rest, er.2.spares lib oid names :=
      fun er her => h er (List.mem_cons_of_mem _ her)
    have hdel : ∀ id, r = HttpRequest.delete id → lib.castObjectId id ≠ some oid := by
      intro id e
      subst e
      exact hr
    rcases findById_http_handle lib env r store oid p hp hdel with
      h1 | ⟨id, payload, patch, e, hid, hread, h1⟩ | ⟨id, payload, effect, e, hid, hread⟩
    · exact ih _ p h1 hrest
    · subst e
      have hplain := hr hid
      rw [hread] at hplain
      rcases hplain with hrej | ⟨patch', hpl, hnames⟩
      · cases hrej
      · cases hpl
        obtain ⟨p', hp', e'⟩ := ih _ _ h1 hrest
        exact ⟨p', hp', e'.trans (hproj env.now patch p hnames)⟩
    · subst e
      have hplain := hr hid
      rw [hread] at hplain
      rcases hplain with hrej | ⟨patch', hpl, -⟩
      · cases hrej
      · cases hpl

/-! ## C1 -/

/-- C1 (counterexample): POST on the empty store with a body that supplies
`applicantsCount` 5 and no workers stores a project whose applicantsCount is 5
while its workers list is empty. -/
theorem c1_post_stores_supplied_count :
    Request.isMutating (Request.post countBody) = true ∧
    ∃ p ∈ (handle false env0 (Request.post countBody) []).2,
      p.applicantsCount = 5 ∧ p.workers.length = 0 ∧ ¬ p.countOk := by
  refine ⟨rfl, ?_⟩
  refine ⟨_, List.mem_singleton.mpr rfl, ?_, ?_, ?_⟩ <;> decide

/-- The derived-counter condition is kept by a request on a cast identifier and
a typed body that names neither workers nor applicantsCount. -/
theorem handle_count_preserved (strictQuery : Bool) (env : Env) (r : Request) (store : Store)
    (hinv : ∀ p ∈ store, p.countOk) (hr : r.countFree) :
    ∀ p ∈ (handle strictQuery env r store).2, p.countOk := by
  intro p hp
  cases r with
  | list q => exact hinv p hp
  | get id =>
    have : (handle strictQuery env (Request.get id) store).2 = store := by
      simp only [handle, router.getById]; split <;> rfl
    exact hinv p (this ▸ hp)
  | post body =>
    obtain ⟨hw, hc⟩ := hr
    rcases post_store env body store with h | h
    · exact hinv p (by simpa [handle, h] using hp)
    · have hp' : p ∈ store ++ [(Project.new env body).stamped env.now] := by
        simpa [handle, h] using hp
      rcases List.mem_append.mp hp' with hp' | hp'
      · exact hinv p hp'
      · rw [List.mem_singleton.mp hp']
        simp [Project.countOk, Project.new, Project.stamped, hw, hc]
  | put id body =>
    obtain ⟨hw, hc⟩ := hr
    rcases put_store env id body store with h | h
    · exact hinv p (by simpa [handle, h] using hp)
    · have hp' : p ∈ updateFirst id (applyUpdate env.now body) store := by
        simpa [handle, h] using hp
      rcases mem_updateFirst hp' with hp' | ⟨q, hq, e⟩
      · exact hinv p hp'
      · have := hinv q hq
        rw [e]
        simpa [Project.countOk, applyUpdate, hw, hc] using this
  | delete id =>
    exact hinv p (mem_deleteFirst
      (by simpa [handle, router.delete, Project.findByIdAndDelete] using hp))

/-- C1 (amended): when every stored project satisfies
applicantsCount == workers.length, it still does after a read, after a DELETE,
after a POST whose body, as the model layer casts it, sets neither workers nor
applicantsCount, and after a PUT that is rejected or whose patch is plain
(top-level field names only, no update operator, no dotted key) and names
neither. An applicantsCount that casts to a number is stored as given: by an
accepted POST in the created project, by a plain valid PUT in the project it
addresses. -/
theorem c1_count_preserved (lib : Library) (env : Env) (r : HttpRequest) (store : Store)
    (hinv : ∀ p ∈ store, p.countOk) (hr : r.countFree lib) :
    (∀ p ∈ (http.handle lib env r store).2, p.countOk) ∧
    (∀ (env' : Env) (payload : JsObject) (body : Body) (c : Int),
      lib.readDocument payload = some body → body.applicantsCount = some c →
      (http.postProject lib env' payload store).1.status = 201 →
      ∃ p, http.postProject lib env' payload store =
          ({ status := 201, body := Json.project p }, store ++ [p]) ∧
        p.applicantsCount = c) ∧
    (∀ (env' : Env) (id : String) (oid : ObjectId) (payload : JsObject) (patch : Body)
      (c : Int) (p : Project),
      lib.castObjectId id = some oid → lib.readUpdate payload = UpdateReading.plain patch →
      patch.validPatch = true → patch.applicantsCount = some c →
      Project.findById oid store = some p →
      ∃ p', (http.putProject lib env' id payload store).1 =
          { status := 200, body := Json.project p' } ∧
        Project.findById oid (http.putProject lib env' id payload store).2 = some p' ∧
        p'.applicantsCount = c) := by
  refine ⟨?_, ?_, ?_⟩
  · intro p hp
    cases r with
    | list builder contractor =>
      simp only [http.handle, http_getProjects_store] at hp
      exact hinv p hp
    | get id =>
      simp only [http.handle, http_getProject_store] at hp
      exact hinv p hp
    | post payload =>
      simp only [http.handle, http.postProject] at hp
      cases hread : lib.readDocument payload with
      | none =>
        simp only [hread] at hp
        exact hinv p hp
      | some body =>
        simp only [hread] at hp
        exact handle_count_preserved false env (Request.post body) store hinv (hr body hread)
          p hp
    | put id payload =>
      simp only [http.handle] at hp
      cases hid : lib.castObjectId id with
      | none =>
        simp only [http.putProject, hid] at hp
        exact hinv p hp
      | some oid =>
        rcases hr with hrej | ⟨patch, hplain, hw, hc⟩
        · rw [http_putProject_rejected lib env id payload store hrej] at hp
          exact hinv p hp
        · rw [http_putProject_plain lib env id payload store oid patch hid hplain] at hp
          exact handle_count_preserved false env (Request.put oid patch) store hinv ⟨hw, hc⟩
            p hp
    | delete id =>
      simp only [http.handle, http.deleteProject] at hp
      cases hid : lib.castObjectId id with
      | none =>
        simp only [hid] at hp
        exact hinv p hp
      | some oid =>
        simp only [hid] at hp
        exact handle_count_preserved false env (Request.delete oid) store hinv trivial p hp
  · intro env' payload body c hread hc hs
    have e : http.postProject lib env' payload store = router.post env' body store := by
      simp only [http.postProject, hread]
    rw [e] at hs ⊢
    rw [router_post_eq] at hs ⊢
    by_cases hv : (Project.new env' body).validate = []
    · rw [if_pos hv]
      exact ⟨_, rfl, by simp [Project.stamped, Project.new, hc]⟩
    · rw [if_neg hv] at hs
      simp at hs
  · intro env' id oid payload patch c p hid hread _ hc hp
    obtain ⟨h1, h2⟩ := http_putProject_plain_found lib env' id payload store oid patch p
      hid hread hp
    exact ⟨_, h1, h2, by simp [applyUpdate, hc]⟩

/-- C1 (witness): the amended property at a store of one project and a PUT
that renames it; the second part at the POST of scenario A with an
applicantsCount of 5. -/
theorem c1_count_preserved_witness :
    (HttpRequest.put id7 [("title", JsValue.str "Foreman")]).countFree sampleLibrary ∧
    (∀ p ∈ (http.handle sampleLibrary env0
        (HttpRequest.put id7 [("title", JsValue.str "Foreman")])
        [Project.new env0 sampleBody]).2, p.countOk) ∧
    ∃ p, http.postProject sampleLibrary env1
        (scenarioAHex ++ [("applicantsCount", JsValue.num 5)]) [Project.new env0 sampleBody] =
        ({ status := 201, body := Json.project p }, [Project.new env0 sampleBody] ++ [p]) ∧
      p.applicantsCount = 5 :=
  have hfree : (HttpRequest.put id7 [("title", JsValue.str "Foreman")]).countFree
      sampleLibrary := Or.inr ⟨_, rfl, rfl, rfl⟩
  have h := c1_count_preserved sampleLibrary env0
    (HttpRequest.put id7 [("title", JsValue.str "Foreman")])
    [Project.new env0 sampleBody]
    (by intro p hp; rw [List.mem_singleton.mp hp]; decide)
    hfree
  ⟨hfree, h.1,
    h.2.1 env1 (scenarioAHex ++ [("applicantsCount", JsValue.num 5)])
      { sampleBody with contractor := some 193, applicantsCount := some 5 } 5
      (by decide) rfl (by decide)⟩

/-! ## C2 -/

theorem requiredString_eq_nil (path : String) (o : Option String) :
    requiredString path o = [] ↔ o.isSome = true ∧ o ≠ some "" := by
  cases o with
  | none => simp [requiredString]
  | some s => by_cases h : s = "" <;> simp [requiredString, h]

theorem requiredObjectId_eq_nil (path : String) (o : Option ObjectId) :
    requiredObjectId path o = [] ↔ o.isSome = true := by
  cases o <;> simp [requiredObjectId]

theorem enumString_eq_nil (path : String) (allowed : List String) (o : Option String) :
    enumString path allowed o = [] ↔ outsideEnum allowed o = false := by
  cases o with
  | none => simp [enumString, outsideEnum]
  | some s => by_cases h : s ∈ allowed <;> simp [enumString, outsideEnum, h]

theorem validateWorkers_eq_nil (i : Nat) (ws : List Application) :
    validateWorkers i ws = [] ↔ ∀ a ∈ ws, a.status ∈ workerStatusEnum := by
  induction ws generalizing i with
  | nil => simp [validateWorkers]
  | cons a rest ih =>
    by_cases h : a.status ∈ workerStatusEnum <;> simp [validateWorkers, h, ih]

theorem castApplication_status_mem (now : Date) (a : ApplicationInput) :
    (castApplication now a).status ∈ workerStatusEnum ↔
      outsideEnum workerStatusEnum a.status = false := by
  cases h : a.status with
  | none => simp [castApplication, outsideEnum, h, workerStatusEnum]
  | some s => simp [castApplication, outsideEnum, h]

theorem status_default_ok (o : Option String) :
    outsideEnum statusEnum (some (o.getD "active")) = false ↔
      outsideEnum statusEnum o = false := by
  cases o with
  | none => simp [outsideEnum, statusEnum]
  | some s => simp

theorem not_outside_ne_empty {allowed : List String} (h : "" ∉ allowed) {o : Option String}
    (ho : outsideEnum allowed o = false) : o ≠ some "" := by
  rintro rfl
  simp [outsideEnum] at ho
  exact h ho

/-- A new document passes every validator exactly when the body has the five
required fields, none of title and location is empty, and every supplied enum
field is inside its enum. -/
theorem validate_new_eq_nil (env : Env) (body : Body) :
    (Project.new env body).validate = [] ↔
      (body.missingRequired || body.emptyRequired || body.invalidEnum) = false := by
  have hpt : "" ∉ projectTypeEnum := by decide
  have het : "" ∉ employmentTypeEnum := by decide
  simp only [Project.validate, List.append_eq_nil, requiredString_eq_nil,
    requiredObjectId_eq_nil, enumString_eq_nil, validateWorkers_eq_nil, Project.new,
    status_default_ok, List.mem_map, forall_exists_index, and_imp, forall_apply_eq_imp_iff₂,
    castApplication_status_mem, Bool.or_eq_false_iff, Body.missingRequired, Body.emptyRequired,
    Body.invalidEnum, List.any_eq_false, Option.isNone_eq_false_iff, beq_eq_false_iff_ne,
    ne_eq, Bool.not_eq_true]
  have e3 := @not_outside_ne_empty _ hpt body.projectType
  have e9 := @not_outside_ne_empty _ het body.employmentType
  simp only [ne_eq] at e3 e9
  tauto

/-- C2 (counterexample): POST with the five required fields supplied, every enum
field valid, and the empty string as title answers 400 with the validation
error of the required validator on title, although no required field is missing
from the body and no enum value is invalid. -/
theorem c2_empty_title_rejected :
    router.post env0 emptyTitleBody [] =
      ({ status := 400, body := Json.validationError [ValidatorError.required "title"] }, []) ∧
    emptyTitleBody.title = some "" ∧
    emptyTitleBody.missingRequired = false ∧ emptyTitleBody.invalidEnum = false := by
  decide

/-- The create handler on a typed body: it answers 400 with a non-empty
validation error exactly when a required field is missing, title or location is
the empty string, or a supplied enum field is outside its enum; for every other
typed body it answers 201 with the created project, whose identifier is the one
generated for the request and whose createdAt and updatedAt are the time of the
request. -/
theorem router_post_validation (env : Env) (body : Body) (store : Store) :
    ((router.post env body store).1.status = 400 ↔
      (body.missingRequired || body.emptyRequired || body.invalidEnum) = true) ∧
    ((router.post env body store).1.status = 201 ↔
      (body.missingRequired || body.emptyRequired || body.invalidEnum) = false) ∧
    (router.post env body store).1 =
      (if (body.missingRequired || body.emptyRequired || body.invalidEnum) = true then
        { status := 400, body := Json.validationError (Project.new env body).validate }
      else
        { status := 201, body := Json.project ((Project.new env body).stamped env.now) }) ∧
    ((Project.new env body).validate = [] ↔
      (body.missingRequired || body.emptyRequired || body.invalidEnum) = false) ∧
    ((Project.new env body).stamped env.now)._id = env.oid ∧
    ((Project.new env body).stamped env.now).createdAt = some env.now ∧
    ((Project.new env body).stamped env.now).updatedAt = some env.now := by
  have hv := validate_new_eq_nil env body
  rw [router_post_eq]
  cases hb : (body.missingRequired || body.emptyRequired || body.invalidEnum)
  · have h := hv.mpr hb
    refine ⟨?_, ?_, ?_, ?_, rfl, rfl, rfl⟩ <;> simp [h]
  · have h : ¬ (Project.new env body).validate = [] := fun h => by
      rw [hv.mp h] at hb; exact Bool.noConfusion hb
    refine ⟨?_, ?_, ?_, ?_, rfl, rfl, rfl⟩ <;> simp [h]


/-- C2 (amended): POST answers 400 exactly when a supplied value does not cast
to the type of its field, or, on the body as cast, a required field is unset,
title or location is the empty string, or a supplied enum field is outside its
enum; it answers 201 for every other body, with the created project, whose
identifier is the one generated for the request and whose createdAt and
updatedAt are the time of the request. On a cast failure nothing is
stored. -/
theorem c2_post_validation (lib : Library) (env : Env) (payload : JsObject) (store : Store) :
    ((http.postProject lib env payload store).1.status = 400 ↔
      lib.readDocument payload = none ∨
        ∃ body, lib.readDocument payload = some body ∧
          (body.missingRequired || body.emptyRequired || body.invalidEnum) = true) ∧
    ((http.postProject lib env payload store).1.status = 201 ↔
      ∃ body, lib.readDocument payload = some body ∧
        (body.missingRequired || body.emptyRequired || body.invalidEnum) = false) ∧
    (lib.readDocument payload = none →
      http.postProject lib env payload store =
        ({ status := 400, body := Json.thrown }, store)) ∧
    (∀ body, lib.readDocument payload = some body →
      (http.postProject lib env payload store).1 =
        (if (body.missingRequired || body.emptyRequired || body.invalidEnum) = true then
          { status := 400, body := Json.validationError (Project.new env body).validate }
        else
          { status := 201, body := Json.project ((Project.new env body).stamped env.now) }) ∧
      ((Project.new env body).validate = [] ↔
        (body.missingRequired || body.emptyRequired || body.invalidEnum) = false) ∧
      ((Project.new env body).stamped env.now)._id = env.oid ∧
      ((Project.new env body).stamped env.now).createdAt = some env.now ∧
      ((Project.new env body).stamped env.now).updatedAt = some env.now) := by
  cases hread : lib.readDocument payload with
  | none =>
    have e : http.postProject lib env payload store =
        ({ status := 400, body := Json.thrown }, store) := by
      simp only [http.postProject, hread]
    rw [e]
    refine ⟨⟨fun _ => Or.inl rfl, fun _ => rfl⟩, ⟨fun h => (by simp at h), ?_⟩, fun _ => rfl, ?_⟩
    · rintro ⟨body, hb, -⟩; cases hb
    · intro body hb; cases hb
  | some body =>
    have e : http.postProject lib env payload store = router.post env body store := by
      simp only [http.postProject, hread]
    rw [e]
    obtain ⟨h1, h2, h3, h4, h5, h6, h7⟩ := router_post_validation env body store
    refine ⟨⟨fun h => Or.inr ⟨body, rfl, h1.mp h⟩, ?_⟩, ⟨fun h => ⟨body, rfl, h2.mp h⟩, ?_⟩,
      (fun h => by cases h), ?_⟩
    · rintro (h | ⟨b, hb, hbad⟩)
      · cases h
      · cases hb; exact h1.mpr hbad
    · rintro ⟨b, hb, hok⟩
      cases hb; exact h2.mpr hok
    · intro b hb
      cases hb
      exact ⟨h3, h4, h5, h6, h7⟩

/-! ## C3 -/

/-- C3 (counterexample): a stored project whose status is completed is moved
back to active by one PUT whose patch is the status active; the handler
answers 200 with the updated project. -/
theorem c3_completed_reopened :
    completedProject.status = "completed" ∧
    Project.findById 7 [completedProject] = some completedProject ∧
    router.put env1 7 reopenPatch [completedProject] =
      ({ status := 200,
         body := Json.project
           { completedProject with status := "active", updatedAt := some 2000 } },
       [{ completedProject with status := "active", updatedAt := some 2000 }]) := by
  decide

/-- C3 (amended): the status of a stored project is the same after every
sequence of requests in which no DELETE is addressed to the project and every
PUT addressed to it is rejected or is a plain patch (top-level field names
only, no update operator, no dotted key) that does not name status; in
particular a completed or cancelled project stays so under such sequences. A
plain valid PUT whose patch names a status answers 200 and stores that status
whatever the current one, so a project can leave completed or cancelled and no
order of transitions is enforced. -/
theorem c3_status_kept (lib : Library) (oid : ObjectId) (rs : List (Env × HttpRequest))
    (store : Store) (p : Project)
    (hp : Project.findById oid store = some p)
    (hrs : ∀ er ∈ rs, er.2.spares lib oid (fun b => b.status.isSome)) :
    (∃ p', Project.findById oid (http.run lib rs store) = some p' ∧
      p'.status = p.status) ∧
    (∀ (env : Env) (id : String) (payload : JsObject) (patch : Body) (v : String),
      lib.castObjectId id = some oid → lib.readUpdate payload = UpdateReading.plain patch →
      patch.validPatch = true → patch.status = some v →
      (http.putProject lib env id payload store).1.status = 200 ∧
      ∃ p', Project.findById oid (http.putProject lib env id payload store).2 = some p' ∧
        p'.status = v) := by
  constructor
  · refine findById_http_run lib (fun q => q.status) oid (fun b => b.status.isSome) ?_ rs store p
      hp hrs
    intro now patch q hnames
    have hnone : patch.status = none := by
      cases h : patch.status with
      | none => rfl
      | some v => simp [h] at hnames
    simp [applyUpdate, hnone]
  · intro env id payload patch v hid hread _ hv
    obtain ⟨h1, h2⟩ := http_putProject_plain_found lib env id payload store oid patch p
      hid hread hp
    refine ⟨by rw [h1], _, h2, ?_⟩
    simp [applyUpdate, hv]

/-- C3 (witness): the amended property at the completed project, a rename and a
read; the second part at a patch that sets the status to active. -/
theorem c3_status_kept_witness :
    Project.findById 7 [completedProject] = some completedProject ∧
    (∃ p', Project.findById 7 (http.run sampleLibrary
        [(env1, HttpRequest.put id7 [("title", JsValue.str "Foreman")]),
          (env1, HttpRequest.get id7)] [completedProject]) = some p' ∧
        p'.status = completedProject.status) ∧
    ((http.putProject sampleLibrary env1 id7 [("status", JsValue.str "active")]
        [completedProject]).1.status = 200 ∧
      ∃ p', Project.findById 7 (http.putProject sampleLibrary env1 id7
          [("status", JsValue.str "active")] [completedProject]).2 = some p' ∧
        p'.status = "active") :=
  have hfind : Project.findById 7 [completedProject] = some completedProject := by decide
  have h := c3_status_kept sampleLibrary 7
    [(env1, HttpRequest.put id7 [("title", JsValue.str "Foreman")]),
      (env1, HttpRequest.get id7)] [completedProject] completedProject hfind
    (by
      intro er her
      simp only [List.mem_cons, List.mem_singleton, List.not_mem_nil, or_false] at her
      rcases her with rfl | rfl
      · exact fun _ => Or.inr ⟨_, rfl, rfl⟩
      · exact trivial)
  ⟨hfind, h.1, h.2 env1 id7 [("status", JsValue.str "active")] reopenPatch "active" (by decide) rfl
      (by decide) rfl⟩

/-! ## C4 -/

/-- C4 (counterexample): the application of worker 31 is accepted; a PUT whose
patch lists the same application as rejected answers 200 and the stored status
of the application is then rejected. -/
theorem c4_accepted_then_rejected :
    acceptedProject.workers = [{ worker := some 31, status := "accepted", appliedAt := 900 }] ∧
    Project.findById 7 [acceptedProject] = some acceptedProject ∧
    (router.put env1 7 rejectPatch [acceptedProject]).1.status = 200 ∧
    (Project.findById 7 (router.put env1 7 rejectPatch [acceptedProject]).2).map
        (fun p => p.workers) =
      some [{ worker := some 31, status := "rejected", appliedAt := 900 }] := by
  decide

/-- C4 (amended): the applications of a stored project, their statuses
included, are the same after every sequence of requests in which no DELETE is
addressed to the project and every PUT addressed to it is rejected or is a
plain patch (top-level field names only, no update operator, no dotted key)
that does not name workers. A plain valid PUT whose patch names workers answers
200 and replaces the whole list by the patch list, an element without status
getting the status pending and one without appliedAt the time of the request,
whatever the statuses stored before: an accepted or rejected application can
change status, and the API has no InvalidTransition failure. -/
theorem c4_workers_kept (lib : Library) (oid : ObjectId) (rs : List (Env × HttpRequest))
    (store : Store) (p : Project)
    (hp : Project.findById oid store = some p)
    (hrs : ∀ er ∈ rs, er.2.spares lib oid (fun b => b.workers.isSome)) :
    (∃ p', Project.findById oid (http.run lib rs store) = some p' ∧
      p'.workers = p.workers) ∧
    (∀ (env : Env) (id : String) (payload : JsObject) (patch : Body)
      (ws : List ApplicationInput),
      lib.castObjectId id = some oid → lib.readUpdate payload = UpdateReading.plain patch →
      patch.validPatch = true → patch.workers = some ws →
      (http.putProject lib env id payload store).1.status = 200 ∧
      ∃ p', Project.findById oid (http.putProject lib env id payload store).2 = some p' ∧
        p'.workers = ws.map (fun a =>
          { worker := a.worker, status := a.status.getD "pending",
            appliedAt := a.appliedAt.getD env.now })) := by
  constructor
  · refine findById_http_run lib (fun q => q.workers) oid (fun b => b.workers.isSome) ?_ rs
      store p hp hrs
    intro now patch q hnames
    have hnone : patch.workers = none := by
      cases h : patch.workers with
      | none => rfl
      | some v => simp [h] at hnames
    simp [applyUpdate, hnone]
  · intro env id payload patch ws hid hread _ hv
    obtain ⟨h1, h2⟩ := http_putProject_plain_found lib env id payload store oid patch p
      hid hread hp
    refine ⟨by rw [h1], _, h2, ?_⟩
    simp only [applyUpdate, hv]
    rfl

/-- C4 (witness): the amended property at the project with an accepted
application, a status patch and a read; the second part at a patch that lists
the application as rejected. -/
theorem c4_workers_kept_witness :
    Project.findById 7 [acceptedProject] = some acceptedProject ∧
    (∃ p', Project.findById 7 (http.run sampleLibrary
        [(env1, HttpRequest.put id7 [("status", JsValue.str "active")]),
          (env1, HttpRequest.get id7)] [acceptedProject]) = some p' ∧
        p'.workers = acceptedProject.workers) ∧
    ((http.putProject sampleLibrary env1 id7
        [("workers", JsValue.obj [("0", JsValue.obj [("status", JsValue.str "rejected")])])]
        [acceptedProject]).1.status = 200 ∧
      ∃ p', Project.findById 7 (http.putProject sampleLibrary env1 id7
          [("workers", JsValue.obj [("0", JsValue.obj [("status", JsValue.str "rejected")])])]
          [acceptedProject]).2 = some p' ∧
        p'.workers = [{ worker := none, status := "rejected", appliedAt := 2000 }]) :=
  have hfind : Project.findById 7 [acceptedProject] = some acceptedProject := by decide
  have h := c4_workers_kept sampleLibrary 7
    [(env1, HttpRequest.put id7 [("status", JsValue.str "active")]),
      (env1, HttpRequest.get id7)] [acceptedProject] acceptedProject hfind
    (by
      intro er her
      simp only [List.mem_cons, List.mem_singleton, List.not_mem_nil, or_false] at her
      rcases her with rfl | rfl
      · exact fun _ => Or.inr ⟨_, rfl, rfl⟩
      · exact trivial)
  ⟨hfind, h.1,
    h.2 env1 id7
      [("workers", JsValue.obj [("0", JsValue.obj [("status", JsValue.str "rejected")])])]
      { Body.empty with
        workers := some [{ worker := none, status := some "rejected", appliedAt := none }] }
      [{ worker := none, status := some "rejected", appliedAt := none }]
      (by decide) rfl (by decide) rfl⟩

/-! ## C5 -/

/-- C5 (code at the failing input): PUT for identifier 9, which no stored
project has, answers 200 with the JSON body null; the store is left as it
was. The sibling handler of GET answers 404 on the same lookup result. -/
theorem c5_put_absent_answers_200_null :
    Project.findById 9 [completedProject] = none ∧
    router.put env1 9 reopenPatch [completedProject] =
      ({ status := 200, body := Json.null }, [completedProject]) ∧
    (router.getById 9 [completedProject]).1 =
      { status := 404, body := Json.message "Project not found" } := by
  decide

/-! ## C6 -/

/-- C6 (code at the failing input): PUT with a patch whose status is archived,
a value outside the status enum, answers 200 and the stored project then holds
that status; POST with the same status is rejected with 400. -/
theorem c6_put_stores_out_of_enum_status :
    "archived" ∉ statusEnum ∧
    router.put env1 7 bogusStatusPatch [completedProject] =
      ({ status := 200,
         body := Json.project
           { completedProject with status := "archived", updatedAt := some 2000 } },
       [{ completedProject with status := "archived", updatedAt := some 2000 }]) ∧
    router.post env1 { sampleBody with status := some "archived" } [] =
      ({ status := 400,
         body := Json.validationError [ValidatorError.enum "status" "archived"] }, []) := by
  decide

/-! ## C7 -/

/-- The first match splits the store: no document before it has the identifier,
and `updateFirst` rewrites that position only. -/
theorem updateFirst_split (id : ObjectId) (f : Project → Project) :
    ∀ (store : Store) (p : Project), Project.findById id store = some p →
      ∃ pre post, store = pre ++ p :: post ∧ (∀ q ∈ pre, q._id ≠ id) ∧ p._id = id ∧
        updateFirst id f store = pre ++ f p :: post := by
  intro store
  induction store with
  | nil => intro p hp; simp [Project.findById] at hp
  | cons q rest ih =>
    intro p hp
    rw [findById_cons] at hp
    by_cases hq : q._id = id
    · rw [if_pos hq] at hp
      cases hp
      exact ⟨[], rest, rfl, by simp, hq, by simp [updateFirst, hq]⟩
    · rw [if_neg hq] at hp
      obtain ⟨pre, post, e, hpre, hid, hu⟩ := ih p hp
      refine ⟨q :: pre, post, by rw [e]; rfl, ?_, hid, ?_⟩
      · intro r hr
        rcases List.mem_cons.mp hr with rfl | hr
        · exact hq
        · exact hpre r hr
      · simp [updateFirst, hq, hu]

/-- C7 (counterexample): the stored timeline has startDate 100 and endDate 200;
after a PUT whose patch is a timeline with startDate 150 only, the stored
timeline has startDate 150 and no endDate. -/
theorem c7_sibling_end_date_lost :
    timelineProject.timeline = { startDate := some 100, endDate := some 200 } ∧
    startDatePatch.timeline = some { startDate := some 150, endDate := none } ∧
    router.put env1 7 startDatePatch [timelineProject] =
      ({ status := 200,
         body := Json.project { timelineProject with
           timeline := { startDate := some 150, endDate := none }, updatedAt := some 2000 } },
       [{ timelineProject with
           timeline := { startDate := some 150, endDate := none }, updatedAt := some 2000 }]) := by
  decide

/-- The update handler on a cast identifier and a typed patch, for a project
that exists: 200 with the project after the update, which takes the place of
the project in the store while every other document stays as it was; each
top-level field named in the patch has the patch value, each top-level field
not named keeps its value, the identifier and createdAt are kept, and updatedAt
is the time of the request. -/
theorem router_put_frame (env : Env) (id : ObjectId) (body : Body) (store : Store) (p : Project)
    (hp : Project.findById id store = some p) :
    ∃ (p' : Project) (pre post : Store),
      store = pre ++ p :: post ∧ (∀ q ∈ pre, q._id ≠ id) ∧
      router.put env id body store =
        ({ status := 200, body := Json.project p' }, pre ++ p' :: post) ∧
      p'._id = p._id ∧ p'.createdAt = p.createdAt ∧ p'.updatedAt = some env.now ∧
      (∀ v, body.title = some v → p'.title = some v) ∧
      (body.title = none → p'.title = p.title) ∧
      (∀ v, body.description = some v → p'.description = some v) ∧
      (body.description = none → p'.description = p.description) ∧
      (∀ v, body.location = some v → p'.location = some v) ∧
      (body.location = none → p'.location = p.location) ∧
      (∀ v, body.projectType = some v → p'.projectType = some v) ∧
      (body.projectType = none → p'.projectType = p.projectType) ∧
      (∀ v, body.timeline = some v → p'.timeline = v) ∧
      (body.timeline = none → p'.timeline = p.timeline) ∧
      (∀ v, body.hourlyRate = some v → p'.hourlyRate = v) ∧
      (body.hourlyRate = none → p'.hourlyRate = p.hourlyRate) ∧
      (∀ v, body.status = some v → p'.status = v) ∧
      (body.status = none → p'.status = p.status) ∧
      (∀ v, body.contractor = some v → p'.contractor = some v) ∧
      (body.contractor = none → p'.contractor = p.contractor) ∧
      (∀ v, body.workers = some v → p'.workers = v.map (castApplication env.now)) ∧
      (body.workers = none → p'.workers = p.workers) ∧
      (∀ v, body.employmentType = some v → p'.employmentType = some v) ∧
      (body.employmentType = none → p'.employmentType = p.employmentType) ∧
      (∀ v, body.applicantsCount = some v → p'.applicantsCount = v) ∧
      (body.applicantsCount = none → p'.applicantsCount = p.applicantsCount) ∧
      (∀ v, body.progress = some v → p'.progress = v) ∧
      (body.progress = none → p'.progress = p.progress) := by
  obtain ⟨pre, post, e, hpre, -, hu⟩ := updateFirst_split id (applyUpdate env.now body) store p hp
  refine ⟨applyUpdate env.now body p, pre, post, e, hpre, ?_, rfl, rfl, rfl, ?_⟩
  · rw [router_put_of_some env id body store p hp, hu]
  · refine ⟨?_, ?_, ?_, ?_, ?_, ?_, ?_, ?_, ?_, ?_, ?_, ?_, ?_, ?_, ?_, ?_, ?_, ?_, ?_, ?_,
      ?_, ?_, ?_, ?_⟩ <;> intros <;> simp_all [applyUpdate]

/-- C7 (amended): for an identifier that casts, an existing project and a plain
valid patch (top-level field names only, no update operator, no dotted key,
values that cast and that the validators of their fields would accept), PUT
answers 200 with the project after the update, which takes the place of the
project in the store while every other document stays as it was. Each top-level
field named in the patch has the patch value: a named timeline or hourlyRate
replaces the stored pair as a whole, so a sub-field the patch leaves out
becomes absent, and named workers replace the list, an element without status
getting pending and one without appliedAt the time of the request. Each
top-level field not named keeps its value, the identifier and createdAt are
kept, and updatedAt is the time of the request. A body the library rejects, such
as one with a value that does not cast, is answered 400 and changes nothing. -/
theorem c7_put_frame (lib : Library) (env : Env) (id : String) (oid : ObjectId)
    (payload : JsObject) (patch : Body) (store : Store) (p : Project)
    (hid : lib.castObjectId id = some oid)
    (hread : lib.readUpdate payload = UpdateReading.plain patch)
    (hvalid : patch.validPatch = true)
    (hp : Project.findById oid store = some p) :
    (∃ (p' : Project) (pre post : Store),
      store = pre ++ p :: post ∧ (∀ q ∈ pre, q._id ≠ oid) ∧
      http.putProject lib env id payload store =
        ({ status := 200, body := Json.project p' }, pre ++ p' :: post) ∧
      p'._id = p._id ∧ p'.createdAt = p.createdAt ∧ p'.updatedAt = some env.now ∧
      (∀ v, patch.title = some v → p'.title = some v) ∧
      (patch.title = none → p'.title = p.title) ∧
      (∀ v, patch.description = some v → p'.description = some v) ∧
      (patch.description = none → p'.description = p.description) ∧
      (∀ v, patch.location = some v → p'.location = some v) ∧
      (patch.location = none → p'.location = p.location) ∧
      (∀ v, patch.projectType = some v → p'.projectType = some v) ∧
      (patch.projectType = none → p'.projectType = p.projectType) ∧
      (∀ v, patch.timeline = some v → p'.timeline = v) ∧
      (patch.timeline = none → p'.timeline = p.timeline) ∧
      (∀ v, patch.hourlyRate = some v → p'.hourlyRate = v) ∧
      (patch.hourlyRate = none → p'.hourlyRate = p.hourlyRate) ∧
      (∀ v, patch.status = some v → p'.status = v) ∧
      (patch.status = none → p'.status = p.status) ∧
      (∀ v, patch.contractor = some v → p'.contractor = some v) ∧
      (patch.contractor = none → p'.contractor = p.contractor) ∧
      (∀ v, patch.workers = some v → p'.workers = v.map (fun a =>
        { worker := a.worker, status := a.status.getD "pending",
          appliedAt := a.appliedAt.getD env.now })) ∧
      (patch.workers = none → p'.workers = p.workers) ∧
      (∀ v, patch.employmentType = some v → p'.employmentType = some v) ∧
      (patch.employmentType = none → p'.employmentType = p.employmentType) ∧
      (∀ v, patch.applicantsCount = some v → p'.applicantsCount = v) ∧
      (patch.applicantsCount = none → p'.applicantsCount = p.applicantsCount) ∧
      (∀ v, patch.progress = some v → p'.progress = v) ∧
      (patch.progress = none → p'.progress = p.progress)) ∧
    (∀ other : JsObject, lib.readUpdate other = UpdateReading.rejected →
      http.putProject lib env id other store =
        ({ status := 400, body := Json.thrown }, store)) := by
  constructor
  · obtain ⟨p', pre, post, h⟩ := router_put_frame env oid patch store p hp
    rw [http_putProject_plain lib env id payload store oid patch hid hread]
    exact ⟨p', pre, post, h⟩
  · intro other hother
    exact http_putProject_rejected lib env id other store hother

/-- C7 (witness): the amended property at the project with a timeline and the
patch of its startDate. -/
theorem c7_put_frame_witness :
    sampleLibrary.castObjectId id7 = some 7 ∧
    Project.findById 7 [timelineProject] = some timelineProject ∧
    ∃ (p' : Project) (pre post : Store),
      [timelineProject] = pre ++ timelineProject :: post ∧ (∀ q ∈ pre, q._id ≠ 7) ∧
      http.putProject sampleLibrary env1 id7
          [("timeline", JsValue.obj [("startDate", JsValue.num 150)])] [timelineProject] =
        ({ status := 200, body := Json.project p' }, pre ++ p' :: post) ∧
      p'._id = timelineProject._id ∧ p'.createdAt = timelineProject.createdAt ∧
      p'.updatedAt = some env1.now ∧
      (∀ v, startDatePatch.timeline = some v → p'.timeline = v) ∧
      (startDatePatch.contractor = none → p'.contractor = timelineProject.contractor) := by
  refine ⟨by decide, by decide, ?_⟩
  obtain ⟨p', pre, post, h1, h2, h3, h4, h5, h6, -, -, -, -, -, -, -, -, h7, -, -, -, -, -,
    -, h8, -⟩ := (c7_put_frame sampleLibrary env1 id7 7
      [("timeline", JsValue.obj [("startDate", JsValue.num 150)])] startDatePatch
      [timelineProject] timelineProject (by decide) rfl (by decide) (by decide)).1
  exact ⟨p', pre, post, h1, h2, h3, h4, h5, h6, h7, h8⟩

/-! ## C8 -/

/-- C8 (counterexample): a project created for contractor 1 belongs to
contractor 2 after one PUT whose patch names contractor 2. -/
theorem c8_contractor_reassigned :
    completedProject.contractor = some 1 ∧
    router.put env1 7 contractorPatch [completedProject] =
      ({ status := 200,
         body := Json.project
           { completedProject with contractor := some 2, updatedAt := some 2000 } },
       [{ completedProject with contractor := some 2, updatedAt := some 2000 }]) := by
  decide

/-- C8 (amended): the contractor of a stored project is the same after every
sequence of requests in which no DELETE is addressed to the project and every
PUT addressed to it is rejected or is a plain patch (top-level field names
only, no update operator, no dotted key) that does not name contractor. A plain
valid PUT whose patch names a contractor that casts to an ObjectId answers 200
and stores that contractor. -/
theorem c8_contractor_kept (lib : Library) (oid : ObjectId) (rs : List (Env × HttpRequest))
    (store : Store) (p : Project)
    (hp : Project.findById oid store = some p)
    (hrs : ∀ er ∈ rs, er.2.spares lib oid (fun b => b.contractor.isSome)) :
    (∃ p', Project.findById oid (http.run lib rs store) = some p' ∧
      p'.contractor = p.contractor) ∧
    (∀ (env : Env) (id : String) (payload : JsObject) (patch : Body) (v : ObjectId),
      lib.castObjectId id = some oid → lib.readUpdate payload = UpdateReading.plain patch →
      patch.validPatch = true → patch.contractor = some v →
      (http.putProject lib env id payload store).1.status = 200 ∧
      ∃ p', Project.findById oid (http.putProject lib env id payload store).2 = some p' ∧
        p'.contractor = some v) := by
  constructor
  · refine findById_http_run lib (fun q => q.contractor) oid (fun b => b.contractor.isSome)
      ?_ rs store p hp hrs
    intro now patch q hnames
    have hnone : patch.contractor = none := by
      cases h : patch.contractor with
      | none => rfl
      | some v => simp [h] at hnames
    simp [applyUpdate, hnone]
  · intro env id payload patch v hid hread _ hv
    obtain ⟨h1, h2⟩ := http_putProject_plain_found lib env id payload store oid patch p
      hid hread hp
    refine ⟨by rw [h1], _, h2, ?_⟩
    simp [applyUpdate, hv]

/-- C8 (witness): the amended property at the completed project, a rename and a
read; the second part at a patch that names another contractor. -/
theorem c8_contractor_kept_witness :
    Project.findById 7 [completedProject] = some completedProject ∧
    (∃ p', Project.findById 7 (http.run sampleLibrary
        [(env1, HttpRequest.put id7 [("title", JsValue.str "Foreman")]),
          (env1, HttpRequest.get id7)] [completedProject]) = some p' ∧
        p'.contractor = completedProject.contractor) ∧
    ((http.putProject sampleLibrary env1 id7
        [("contractor", JsValue.str "000000000000000000000002")]
        [completedProject]).1.status = 200 ∧
      ∃ p', Project.findById 7 (http.putProject sampleLibrary env1 id7
          [("contractor", JsValue.str "000000000000000000000002")]
          [completedProject]).2 = some p' ∧
        p'.contractor = some 2) :=
  have hfind : Project.findById 7 [completedProject] = some completedProject := by decide
  have h := c8_contractor_kept sampleLibrary 7
    [(env1, HttpRequest.put id7 [("title", JsValue.str "Foreman")]),
      (env1, HttpRequest.get id7)] [completedProject] completedProject hfind
    (by
      intro er her
      simp only [List.mem_cons, List.mem_singleton, List.not_mem_nil, or_false] at her
      rcases her with rfl | rfl
      · exact fun _ => Or.inr ⟨_, rfl, rfl⟩
      · exact trivial)
  ⟨hfind, h.1,
    h.2 env1 id7 [("contractor", JsValue.str "000000000000000000000002")] contractorPatch 2
      (by decide) rfl (by decide) rfl⟩

/-! ## C9 -/

theorem findById_eq_none_iff (id : ObjectId) (store : Store) :
    Project.findById id store = none ↔ ∀ p ∈ store, p._id ≠ id := by
  simp [Project.findById, List.find?_eq_none]

theorem findById_some_mem {id : ObjectId} {store : Store} {p : Project}
    (h : Project.findById id store = some p) : p ∈ store ∧ p._id = id := by
  unfold Project.findById at h
  exact ⟨List.mem_of_find?_eq_some h, by simpa using List.find?_some h⟩

/-- The handler of GET /projects/:id on an identifier that casts: it never
changes the store; when some stored project has the identifier it answers 200
with a stored project of that identifier; it answers 404 with the message
Project not found exactly when no stored project has it; and a second call
answers as the first. -/
theorem router_getById_spec (id : ObjectId) (store : Store) :
    (router.getById id store).2 = store ∧
    ((∃ p ∈ store, p._id = id) ↔
      ∃ p ∈ store, p._id = id ∧ Project.findById id store = some p ∧
        (router.getById id store).1 = { status := 200, body := Json.project p }) ∧
    ((∀ p ∈ store, p._id ≠ id) ↔
      (router.getById id store).1 = { status := 404, body := Json.message "Project not found" }) ∧
    ((router.getById id store).1.status = 404 ↔ ∀ p ∈ store, p._id ≠ id) ∧
    router.getById id (router.getById id store).2 = router.getById id store := by
  cases h : Project.findById id store with
  | none =>
    have hn := (findById_eq_none_iff id store).mp h
    have e : router.getById id store =
        ({ status := 404, body := Json.message "Project not found" }, store) := by
      simp [router.getById, h]
    refine ⟨by rw [e], ?_, ?_, ?_, by rw [e, e]⟩
    · constructor
      · rintro ⟨p, hp, hid⟩; exact absurd hid (hn p hp)
      · rintro ⟨p, hp, hid, -⟩; exact ⟨p, hp, hid⟩
    · rw [e]; exact ⟨fun _ => rfl, fun _ => hn⟩
    · rw [e]; exact ⟨fun _ => hn, fun _ => rfl⟩
  | some p =>
    obtain ⟨hm, hid⟩ := findById_some_mem h
    have e : router.getById id store = ({ status := 200, body := Json.project p }, store) := by
      simp [router.getById, h]
    refine ⟨by rw [e], ?_, ?_, ?_, by rw [e, e]⟩
    · exact ⟨fun _ => ⟨p, hm, hid, rfl, by rw [e]⟩, fun ⟨q, hq, hqid, _⟩ => ⟨q, hq, hqid⟩⟩
    · rw [e]
      exact ⟨fun hn => absurd hid (hn p hm), fun he => by simp at he⟩
    · rw [e]
      exact ⟨fun he => by simp at he, fun hn => absurd hid (hn p hm)⟩


/-- C9 (counterexample): the identifier abc is not a well-formed ObjectId; no
stored project has it, and GET /projects/abc answers 500, not 404. -/
theorem c9_malformed_id_answers_500 :
    sampleLibrary.castObjectId "abc" = none ∧
    http.getProject sampleLibrary "abc" [completedProject] =
      ({ status := 500, body := Json.thrown }, [completedProject]) := by
  decide

/-- C9 (amended): GET /projects/:id never changes the store, and a second call
answers as the first. For an identifier that casts to an ObjectId it answers
200 with the stored project of that identifier when there is one, and 404 with
the message Project not found exactly when there is none. For an identifier
that does not cast it answers 500. So 404 is answered exactly when the
identifier is well formed and no stored project has it. -/
theorem c9_get_by_id (lib : Library) (id : String) (store : Store) :
    (http.getProject lib id store).2 = store ∧
    http.getProject lib id (http.getProject lib id store).2 = http.getProject lib id store ∧
    (lib.castObjectId id = none →
      (http.getProject lib id store).1 = { status := 500, body := Json.thrown }) ∧
    (∀ oid, lib.castObjectId id = some oid →
      ((∃ p ∈ store, p._id = oid) ↔
        ∃ p ∈ store, p._id = oid ∧ Project.findById oid store = some p ∧
          (http.getProject lib id store).1 = { status := 200, body := Json.project p }) ∧
      ((∀ p ∈ store, p._id ≠ oid) ↔
        (http.getProject lib id store).1 =
          { status := 404, body := Json.message "Project not found" })) ∧
    ((http.getProject lib id store).1.status = 404 ↔
      ∃ oid, lib.castObjectId id = some oid ∧ ∀ p ∈ store, p._id ≠ oid) := by
  have hstore := http_getProject_store lib id store
  refine ⟨hstore, by rw [hstore], ?_, ?_, ?_⟩
  · intro hid
    simp only [http.getProject, hid]
  · intro oid hid
    have e : http.getProject lib id store = router.getById oid store := by
      simp only [http.getProject, hid]
    rw [e]
    obtain ⟨-, h2, h3, -, -⟩ := router_getById_spec oid store
    exact ⟨h2, h3⟩
  · cases hid : lib.castObjectId id with
    | none =>
      have e : http.getProject lib id store = ({ status := 500, body := Json.thrown }, store) := by
        simp only [http.getProject, hid]
      rw [e]
      constructor
      · intro h; simp at h
      · rintro ⟨oid, h, -⟩; cases h
    | some oid =>
      have e : http.getProject lib id store = router.getById oid store := by
        simp only [http.getProject, hid]
      rw [e]
      obtain ⟨-, -, -, h4, -⟩ := router_getById_spec oid store
      constructor
      · intro h; exact ⟨oid, rfl, h4.mp h⟩
      · rintro ⟨oid', h, hn⟩
        cases h
        exact h4.mpr hn

/-! ## C10 -/

/-- The query the list handler builds selects the projects the specification
describes. -/
theorem matches_iff_spec (q : ReqQuery) (p : Project) :
    Filter.matches { builder := truthyString q.builder, contractor := q.contractor } p =
      decide ((∀ c, q.contractor = some c → p.contractor = some c) ∧
        (∀ b, q.builder = some b → b ≠ "" → p.builder = some b)) := by
  rcases q with ⟨builder, contractor⟩
  rw [Bool.eq_iff_iff]
  cases contractor <;> cases builder with
  | none => simp [Filter.matches, truthyString]
  | some b => by_cases hb : b = "" <;> simp [Filter.matches, truthyString, hb, Project.builder]

/-- The list handler on a cast contractor: it answers 200 with the listing the
specification describes, the builder condition being dropped when `strictQuery`
is on, and leaves the store as it is. -/
theorem router_get_spec (strictQuery : Bool) (q : ReqQuery) (store : Store) :
    router.get strictQuery q store =
      ({ status := 200,
         body := Json.projects
           (specListProjects q.contractor (if strictQuery then none else q.builder) store) },
        store) := by
  cases strictQuery with
  | false =>
    have hf : Filter.matches { builder := truthyString q.builder, contractor := q.contractor } =
        fun p => decide ((∀ c, q.contractor = some c → p.contractor = some c) ∧
          (∀ b, q.builder = some b → b ≠ "" → p.builder = some b)) :=
      funext (matches_iff_spec q)
    simp only [router.get, Project.find, Filter.sanitize, specListProjects, hf]
    simp [hf]
  | true =>
    have hf : Filter.matches { builder := none, contractor := q.contractor } =
        fun p => decide ((∀ c, q.contractor = some c → p.contractor = some c) ∧
          (∀ b, (none : Option String) = some b → b ≠ "" → p.builder = some b)) := by
      funext p
      simpa [truthyString] using
        matches_iff_spec { builder := none, contractor := q.contractor } p
    simp only [router.get, Project.find, Filter.sanitize, specListProjects, if_true, hf]

/-- The list handler in closed form: 500 when the contractor parameter throws
in the cast, otherwise the handler on the cast contractor. -/
theorem http_getProjects_eq (lib : Library) (builder contractor : Option String)
    (store : Store) :
    http.getProjects lib builder contractor store =
      match contractorCondition lib contractor with
      | none => ({ status := 500, body := Json.thrown }, store)
      | some cond =>
        router.get lib.strictQuery { builder := builder, contractor := cond } store := by
  unfold http.getProjects contractorCondition
  cases truthyString contractor with
  | none => rfl
  | some c =>
    simp only []
    cases lib.castObjectId c <;> rfl

/-- C10 (counterexample): GET /projects?contractor=C1 is answered 500, not with
the list of the projects whose contractor is C1: the parameter is not a
well-formed ObjectId and the cast of the query throws. -/
theorem c10_malformed_contractor_answers_500 :
    sampleLibrary.castObjectId "C1" = none ∧
    http.getProjects sampleLibrary none (some "C1") [completedProject, acceptedProject] =
      ({ status := 500, body := Json.thrown }, [completedProject, acceptedProject]) := by
  decide

/-- C10 (amended): GET /projects leaves the store as it is. A parameter is given
when it is present and non-empty. When a contractor is given that does not cast
to an ObjectId the answer is 500. Otherwise the answer is 200 with the stored
projects, in store order, that match the conditions reaching the store: the
contractor condition when a contractor is given, and the builder condition when
a builder is given and `strictQuery` is off (with it on the builder condition is
dropped). No stored project carries a builder, since the schema has no such
path, so a listing whose builder condition reaches the store is empty. With no
parameter given the listing is the whole store. -/
theorem c10_list_projects (lib : Library) (builder contractor : Option String)
    (store : Store) :
    (http.getProjects lib builder contractor store).2 = store ∧
    (contractorCondition lib contractor = none →
      (http.getProjects lib builder contractor store).1 =
        { status := 500, body := Json.thrown }) ∧
    (∀ cond, contractorCondition lib contractor = some cond →
      (http.getProjects lib builder contractor store).1 =
        { status := 200,
          body := Json.projects (specListProjects cond (builderCondition lib builder) store) }) ∧
    (∀ cond p, p ∈ specListProjects cond (builderCondition lib builder) store ↔
      p ∈ store ∧ (∀ c, cond = some c → p.contractor = some c) ∧
        (∀ b, builderCondition lib builder = some b → b ≠ "" → p.builder = some b)) ∧
    (∀ cond, List.Sublist (specListProjects cond (builderCondition lib builder) store) store) ∧
    (∀ cond b, b ≠ "" → specListProjects cond (some b) store = []) ∧
    specListProjects none none store = store ∧
    (∀ c, specListProjects (some c) none store =
      store.filter (fun p => p.contractor == some c)) ∧
    (truthyString contractor = none → contractorCondition lib contractor = some none) ∧
    (∀ c, truthyString contractor = some c →
      contractorCondition lib contractor = (lib.castObjectId c).map some) ∧
    (lib.strictQuery = true → builderCondition lib builder = none) ∧
    (lib.strictQuery = false → builderCondition lib builder = builder) := by
  refine ⟨http_getProjects_store lib builder contractor store, ?_, ?_, ?_, ?_, ?_, ?_, ?_,
    ?_, ?_, ?_, ?_⟩
  · intro h
    rw [http_getProjects_eq, h]
  · intro cond h
    rw [http_getProjects_eq, h]
    simp only [router_get_spec, builderCondition]
  · intro cond p
    simp [specListProjects]
  · intro cond
    exact List.filter_sublist _
  · intro cond b hb
    simp [specListProjects, Project.builder, hb]
  · simp [specListProjects]
  · intro c
    simp only [specListProjects]
    congr 1
    funext p
    rw [Bool.eq_iff_iff]
    simp
  · intro h
    simp [contractorCondition, h]
  · intro c h
    simp [contractorCondition, h]
  · intro h
    simp [builderCondition, h]
  · intro h
    simp [builderCondition, h]

/-! ## C11 -/

theorem deleteFirst_of_absent {id : ObjectId} {store : Store}
    (h : ∀ p ∈ store, p._id ≠ id) : deleteFirst id store = store := by
  induction store with
  | nil => rfl
  | cons q rest ih =>
    have hq : ¬ q._id = id := h q (List.mem_cons_self _ _)
    simp only [deleteFirst, hq, if_false]
    rw [ih (fun p hp => h p (List.mem_cons_of_mem _ hp))]

/-- Under the unique index, deleting the first match removes every document
with the identifier and nothing else. -/
theorem deleteFirst_eq_filter {id : ObjectId} {store : Store} (h : uniqueIds store) :
    deleteFirst id store = store.filter (fun p => p._id != id) := by
  induction store with
  | nil => rfl
  | cons q rest ih =>
    have hn : (q._id :: rest.map (fun p => p._id)).Nodup := h
    obtain ⟨hq, hrest⟩ := List.nodup_cons.mp hn
    by_cases e : q._id = id
    · have habs : ∀ p ∈ rest, p._id ≠ id := by
        intro p hp hpid
        exact hq (List.mem_map.mpr ⟨p, hp, hpid.trans e.symm⟩)
      have hf : rest.filter (fun p => p._id != id) = rest :=
        List.filter_eq_self.mpr (fun p hp => by simpa using habs p hp)
      simp [deleteFirst, e, hf]
    · have := ih hrest
      simp [deleteFirst, e, this]

/-- The handlers of DELETE and GET on an identifier that casts, in a collection
with unique identifiers: after the DELETE a GET of the same identifier answers
404 Project not found; no document with the identifier is left; and the
projects with another identifier are the same documents as before, in the same
order. -/
theorem router_delete_then_get (id : ObjectId) (store : Store) (h : uniqueIds store) :
    (router.getById id (router.delete id store).2).1 =
      { status := 404, body := Json.message "Project not found" } ∧
    (∀ p ∈ (router.delete id store).2, p._id ≠ id) ∧
    (∀ p, p._id ≠ id → (p ∈ (router.delete id store).2 ↔ p ∈ store)) ∧
    (∀ id', id' ≠ id →
      Project.findById id' (router.delete id store).2 = Project.findById id' store) ∧
    (router.delete id store).2 = store.filter (fun p => p._id != id) := by
  have hd : (router.delete id store).2 = store.filter (fun p => p._id != id) := by
    simp only [router.delete, Project.findByIdAndDelete]
    exact deleteFirst_eq_filter h
  have habs : ∀ p ∈ (router.delete id store).2, p._id ≠ id := by
    intro p hp
    rw [hd] at hp
    simpa using (List.mem_filter.mp hp).2
  refine ⟨?_, habs, ?_, ?_, hd⟩
  · have hnone := (findById_eq_none_iff id _).mpr habs
    simp [router.getById, hnone]
  · intro p hp
    rw [hd, List.mem_filter]
    simp [hp]
  · intro id' hne
    simp only [router.delete, Project.findByIdAndDelete]
    exact findById_deleteFirst_of_ne (fun e => hne e.symm) store

/-- C11 (counterexample): DELETE /projects/abc is answered 500, and the GET of
the same identifier after it is answered 500 as well, not 404. -/
theorem c11_malformed_id_answers_500 :
    sampleLibrary.castObjectId "abc" = none ∧
    http.deleteProject sampleLibrary "abc" [acceptedProject] =
      ({ status := 500, body := Json.thrown }, [acceptedProject]) ∧
    (http.getProject sampleLibrary "abc"
        (http.deleteProject sampleLibrary "abc" [acceptedProject]).2).1 =
      { status := 500, body := Json.thrown } := by
  decide

/-- C11 (amended): in a collection with unique identifiers, for an identifier
that casts to an ObjectId, after DELETE /projects/:id a GET of the same
identifier answers 404 Project not found; no document with the identifier, and
so none of its embedded applications, is left; and the projects with another
identifier are the same documents as before, in the same order. For an
identifier that does not cast, the DELETE and the GET both answer 500 and the
store is left as it was. -/
theorem c11_delete_then_get (lib : Library) (id : String) (store : Store)
    (h : uniqueIds store) :
    (∀ oid, lib.castObjectId id = some oid →
      (http.getProject lib id (http.deleteProject lib id store).2).1 =
        { status := 404, body := Json.message "Project not found" } ∧
      (∀ p ∈ (http.deleteProject lib id store).2, p._id ≠ oid) ∧
      (∀ p, p._id ≠ oid → (p ∈ (http.deleteProject lib id store).2 ↔ p ∈ store)) ∧
      (∀ oid', oid' ≠ oid →
        Project.findById oid' (http.deleteProject lib id store).2 =
          Project.findById oid' store) ∧
      (http.deleteProject lib id store).2 = store.filter (fun p => p._id != oid)) ∧
    (lib.castObjectId id = none →
      http.deleteProject lib id store = ({ status := 500, body := Json.thrown }, store) ∧
      (http.getProject lib id (http.deleteProject lib id store).2).1 =
        { status := 500, body := Json.thrown }) := by
  constructor
  · intro oid hid
    have ed : http.deleteProject lib id store = router.delete oid store := by
      simp only [http.deleteProject, hid]
    have eg : ∀ s, http.getProject lib id s = router.getById oid s := by
      intro s; simp only [http.getProject, hid]
    rw [ed, eg]
    exact router_delete_then_get oid store h
  · intro hid
    have ed : http.deleteProject lib id store =
        ({ status := 500, body := Json.thrown }, store) := by
      simp only [http.deleteProject, hid]
    refine ⟨ed, ?_⟩
    simp only [http.getProject, hid]

/-- C11 (witness): deleting project 7 from a store of projects 7 and 8. -/
theorem c11_delete_then_get_witness :
    uniqueIds [acceptedProject, otherProject] ∧
    sampleLibrary.castObjectId id7 = some 7 ∧
    (http.getProject sampleLibrary id7
        (http.deleteProject sampleLibrary id7 [acceptedProject, otherProject]).2).1 =
      { status := 404, body := Json.message "Project not found" } ∧
    (http.deleteProject sampleLibrary id7 [acceptedProject, otherProject]).2 =
      [otherProject] :=
  have hu : uniqueIds [acceptedProject, otherProject] := by decide
  have h := (c11_delete_then_get sampleLibrary id7 [acceptedProject, otherProject] hu).1 7
    (by decide)
  ⟨hu, by decide, h.1, by decide⟩

/-! ## C12 -/

/-- The handler of DELETE on an identifier that casts: it answers 200 with the
message Project deleted; when no stored project has the identifier the store is
left as it is; and, in a collection with unique identifiers, a second DELETE of
the same identifier gives the same response and the same store as the first. -/
theorem router_delete_idempotent (id : ObjectId) (store : Store) (h : uniqueIds store) :
    (router.delete id store).1 = { status := 200, body := Json.message "Project deleted" } ∧
    ((∀ p ∈ store, p._id ≠ id) →
      router.delete id store =
        ({ status := 200, body := Json.message "Project deleted" }, store)) ∧
    router.delete id (router.delete id store).2 = router.delete id store := by
  have habs : ∀ p ∈ deleteFirst id store, p._id ≠ id := by
    intro p hp
    rw [deleteFirst_eq_filter h] at hp
    simpa using (List.mem_filter.mp hp).2
  refine ⟨rfl, ?_, ?_⟩
  · intro hn
    simp [router.delete, Project.findByIdAndDelete, deleteFirst_of_absent hn]
  · simp [router.delete, Project.findByIdAndDelete, deleteFirst_of_absent habs]

/-- C12 (counterexample): no stored project has the identifier abc, and DELETE
/projects/abc answers 500, not 200 with the confirmation message. -/
theorem c12_malformed_id_answers_500 :
    sampleLibrary.castObjectId "abc" = none ∧
    http.deleteProject sampleLibrary "abc" [acceptedProject, otherProject] =
      ({ status := 500, body := Json.thrown }, [acceptedProject, otherProject]) := by
  decide

/-- C12 (amended): in a collection with unique identifiers, DELETE
/projects/:id applied twice yields the same store and the same response as
applied once, for every identifier. For an identifier that casts to an
ObjectId it answers 200 with the message Project deleted, and leaves the store
as it is when no stored project has the identifier. For an identifier that
does not cast it answers 500 and leaves the store as it is. -/
theorem c12_delete_idempotent (lib : Library) (id : String) (store : Store)
    (h : uniqueIds store) :
    http.deleteProject lib id (http.deleteProject lib id store).2 =
      http.deleteProject lib id store ∧
    (∀ oid, lib.castObjectId id = some oid →
      (http.deleteProject lib id store).1 =
        { status := 200, body := Json.message "Project deleted" } ∧
      ((∀ p ∈ store, p._id ≠ oid) →
        http.deleteProject lib id store =
          ({ status := 200, body := Json.message "Project deleted" }, store))) ∧
    (lib.castObjectId id = none →
      http.deleteProject lib id store = ({ status := 500, body := Json.thrown }, store)) := by
  cases hid : lib.castObjectId id with
  | none =>
    have ed : ∀ s, http.deleteProject lib id s = ({ status := 500, body := Json.thrown }, s) := by
      intro s; simp only [http.deleteProject, hid]
    refine ⟨by rw [ed, ed], ?_, fun _ => ed store⟩
    intro oid ho
    cases ho
  | some oid =>
    have ed : ∀ s, http.deleteProject lib id s = router.delete oid s := by
      intro s; simp only [http.deleteProject, hid]
    obtain ⟨h1, h2, h3⟩ := router_delete_idempotent oid store h
    refine ⟨by rw [ed, ed]; exact h3, ?_, fun ho => by cases ho⟩
    intro oid' ho
    cases ho
    rw [ed]
    exact ⟨h1, h2⟩

/-- C12 (witness): deleting project 7 twice from a store of projects 7 and 8,
and deleting the absent identifier 9. -/
theorem c12_delete_idempotent_witness :
    uniqueIds [acceptedProject, otherProject] ∧
    http.deleteProject sampleLibrary id7
        (http.deleteProject sampleLibrary id7 [acceptedProject, otherProject]).2 =
      http.deleteProject sampleLibrary id7 [acceptedProject, otherProject] ∧
    http.deleteProject sampleLibrary id9 [acceptedProject, otherProject] =
      ({ status := 200, body := Json.message "Project deleted" },
        [acceptedProject, otherProject]) :=
  have hu : uniqueIds [acceptedProject, otherProject] := by decide
  have h := c12_delete_idempotent sampleLibrary id7 [acceptedProject, otherProject] hu
  ⟨hu, h.1, by decide⟩

/-! ## C13 -/

/-- The create handler on a typed body with the five required fields present,
non-empty and inside their enums, and with no status, workers, applicantsCount
or progress: it answers 201 with the created project, appended to the store;
its status is active, its workers list empty, its applicantsCount 0 and its
progress 0, and the supplied fields are stored as given. -/
theorem router_post_defaults (env : Env) (body : Body) (store : Store)
    (hvalid : (body.missingRequired || body.emptyRequired || body.invalidEnum) = false)
    (hs : body.status = none) (hw : body.workers = none)
    (hc : body.applicantsCount = none) (hp : body.progress = none) :
    ∃ p, router.post env body store =
        ({ status := 201, body := Json.project p }, store ++ [p]) ∧
      p.status = "active" ∧ p.workers = [] ∧ p.applicantsCount = 0 ∧ p.progress = 0 ∧
      p.title = body.title ∧ p.location = body.location ∧
      p.projectType = body.projectType ∧ p.employmentType = body.employmentType ∧
      p.contractor = body.contractor ∧ p.description = body.description ∧
      p.timeline = body.timeline.getD { startDate := none, endDate := none } ∧
      p.hourlyRate = body.hourlyRate.getD { min := none, max := none } := by
  have hv := (validate_new_eq_nil env body).mpr hvalid
  refine ⟨(Project.new env body).stamped env.now, ?_, ?_⟩
  · rw [router_post_eq, if_pos hv]
  · simp [Project.stamped, Project.new, hs, hw, hc, hp]

/-- C13 (counterexample): the body of scenario A, with contractor C1, supplies
the five required fields and nothing else; C1 does not cast to an ObjectId, and
POST answers 400 and stores nothing. -/
theorem c13_scenario_a_rejected :
    scenarioA.get "title" = JsValue.str "Site Engineer" ∧
    scenarioA.get "location" = JsValue.str "Pune" ∧
    scenarioA.get "projectType" = JsValue.str "Commercial" ∧
    scenarioA.get "employmentType" = JsValue.str "Contract" ∧
    scenarioA.get "contractor" = JsValue.str "C1" ∧
    sampleLibrary.castObjectId "C1" = none ∧
    http.postProject sampleLibrary env0 scenarioA [] =
      ({ status := 400, body := Json.thrown }, []) :=
  ⟨rfl, rfl, rfl, rfl, rfl, by decide, by decide⟩

/-- C13 (amended): for a body whose supplied values all cast to the types of
their fields (the contractor, in particular, being a well-formed ObjectId), that
has the five required fields present, non-empty and inside their enums, and that
supplies no status, workers, applicantsCount or progress, POST answers 201 with
the created project, appended to the store; its status is active, its workers
list empty, its applicantsCount 0 and its progress 0, and the supplied fields
are stored as cast. A body with a value that does not cast is answered 400 and
nothing is stored. -/
theorem c13_create_defaults (lib : Library) (env : Env) (payload : JsObject) (store : Store)
    (body : Body) (hread : lib.readDocument payload = some body)
    (hvalid : (body.missingRequired || body.emptyRequired || body.invalidEnum) = false)
    (hs : body.status = none) (hw : body.workers = none)
    (hc : body.applicantsCount = none) (hp : body.progress = none) :
    (∃ p, http.postProject lib env payload store =
        ({ status := 201, body := Json.project p }, store ++ [p]) ∧
      p.status = "active" ∧ p.workers = [] ∧ p.applicantsCount = 0 ∧ p.progress = 0 ∧
      p.title = body.title ∧ p.location = body.location ∧
      p.projectType = body.projectType ∧ p.employmentType = body.employmentType ∧
      p.contractor = body.contractor ∧ p.description = body.description ∧
      p.timeline = body.timeline.getD { startDate := none, endDate := none } ∧
      p.hourlyRate = body.hourlyRate.getD { min := none, max := none }) ∧
    (∀ other : JsObject, lib.readDocument other = none →
      http.postProject lib env other store = ({ status := 400, body := Json.thrown }, store)) := by
  constructor
  · have e : http.postProject lib env payload store = router.post env body store := by
      simp only [http.postProject, hread]
    rw [e]
    exact router_post_defaults env body store hvalid hs hw hc hp
  · intro other hother
    simp only [http.postProject, hother]

/-- C13 (witness): scenario A with a contractor of 24 hexadecimal digits. -/
theorem c13_create_defaults_witness :
    scenarioAHex.get "contractor" = JsValue.str "0000000000000000000000c1" ∧
    sampleLibrary.readDocument scenarioAHex = some { sampleBody with contractor := some 193 } ∧
    ∃ p, http.postProject sampleLibrary env0 scenarioAHex [] =
        ({ status := 201, body := Json.project p }, [] ++ [p]) ∧
      p.title = some "Site Engineer" ∧ p.location = some "Pune" ∧
      p.status = "active" ∧ p.workers = [] ∧ p.applicantsCount = 0 ∧ p.progress = 0 :=
  have hread : sampleLibrary.readDocument scenarioAHex =
      some { sampleBody with contractor := some 193 } := by decide
  have ⟨p, h1, h2, h3, h4, h5, h6, h7, _⟩ :=
    (c13_create_defaults sampleLibrary env0 scenarioAHex []
      { sampleBody with contractor := some 193 } hread (by decide) rfl rfl rfl rfl).1
  ⟨rfl, hread, p, h1, h6, h7, h2, h3, h4, h5⟩

/-! ## C14 -/

/-- C14: for every store and every body that fails validation (a required field
missing or empty, or an enum field outside its enum), POST answers 400 with the
non-empty validation error and the store after the call is the store before
it. -/
theorem c14_create_atomic (env : Env) (body : Body) (store : Store)
    (hfail : (body.missingRequired || body.emptyRequired || body.invalidEnum) = true) :
    router.post env body store =
      ({ status := 400, body := Json.validationError (Project.new env body).validate },
        store) ∧
    (Project.new env body).validate ≠ [] ∧
    (router.post env body store).2 = store := by
  have hv : ¬ (Project.new env body).validate = [] := fun h => by
    rw [(validate_new_eq_nil env body).mp h] at hfail
    exact Bool.noConfusion hfail
  rw [router_post_eq, if_neg hv]
  exact ⟨rfl, hv, rfl⟩

/-- C14 (witness): scenario D, the sample body without location, on a store of
one project. -/
theorem c14_create_atomic_witness :
    noLocationBody.location = none ∧
    router.post env1 noLocationBody [completedProject] =
      ({ status := 400, body := Json.validationError [ValidatorError.required "location"] },
        [completedProject]) :=
  have h := c14_create_atomic env1 noLocationBody [completedProject] (by decide)
  ⟨rfl, h.1.trans (by decide)⟩


/-! ## The unique index is kept by the handlers -/

theorem map_id_updateFirst (id : ObjectId) (f : Project → Project)
    (hf : ∀ q, (f q)._id = q._id) (store : Store) :
    (updateFirst id f store).map (fun p => p._id) = store.map (fun p => p._id) := by
  induction store with
  | nil => rfl
  | cons q rest ih =>
    by_cases h : q._id = id
    · simp [updateFirst, h, hf]
    · simp [updateFirst, h, ih]

theorem deleteFirst_sublist (id : ObjectId) (store : Store) :
    List.Sublist (deleteFirst id store) store := by
  induction store with
  | nil => exact List.Sublist.refl _
  | cons q rest ih =>
    by_cases h : q._id = id
    · simp [deleteFirst, h]
    · simp [deleteFirst, h, ih]

/-- A request keeps the identifiers of the collection distinct, provided the
identifier generated for it is not one of a stored document. -/
theorem uniqueIds_handle (strictQuery : Bool) (env : Env) (r : Request) (store : Store)
    (h : uniqueIds store) (hfresh : ∀ p ∈ store, p._id ≠ env.oid) :
    uniqueIds (handle strictQuery env r store).2 := by
  cases r with
  | list q => exact h
  | get id =>
    have : (handle strictQuery env (Request.get id) store).2 = store := by
      simp only [handle, router.getById]; split <;> rfl
    rw [this]; exact h
  | post body =>
    rcases post_store env body store with e | e
    · simp only [handle, e]; exact h
    · simp only [handle, e, uniqueIds, List.map_append, List.map_cons, List.map_nil]
      refine List.Nodup.append h (List.nodup_singleton _) ?_
      intro x hx hx'
      obtain ⟨p, hp, rfl⟩ := List.mem_map.mp hx
      exact hfresh p hp (List.mem_singleton.mp hx')
  | put id body =>
    rcases put_store env id body store with e | e
    · simp only [handle, e]; exact h
    · simp only [handle, e, uniqueIds]
      rw [map_id_updateFirst _ _ (applyUpdate_id _ _)]
      exact h
  | delete id =>
    simp only [handle, router.delete, Project.findByIdAndDelete, uniqueIds]
    exact List.Nodup.sublist ((deleteFirst_sublist id store).map _) h


/-! ## Lemmas on plain objects -/

theorem get_nil (key : String) : JsObject.get [] key = JsValue.undefined := rfl

theorem get_cons (kv : String × JsValue) (rest : JsObject) (key : String) :
    JsObject.get (kv :: rest) key = if kv.1 = key then kv.2 else JsObject.get rest key := by
  unfold JsObject.get
  rw [List.find?_cons]
  by_cases h : kv.1 = key
  · simp [h]
  · have : (kv.1 == key) = false := by simpa using h
    simp [h, this]

theorem get_set_self (o : JsObject) (key : String) (value : JsValue) :
    (o.set key value).get key = value := by
  induction o with
  | nil => simp [JsObject.set, get_cons]
  | cons kv rest ih =>
    by_cases h : kv.1 = key
    · simp [JsObject.set, h, get_cons]
    · simp [JsObject.set, h, get_cons, ih]

theorem get_set_of_ne (o : JsObject) {key key' : String} (value : JsValue) (h : key' ≠ key) :
    (o.set key value).get key' = o.get key' := by
  induction o with
  | nil => simp [JsObject.set, get_cons, get_nil, Ne.symm h]
  | cons kv rest ih =>
    by_cases e : kv.1 = key
    · have : ¬ kv.1 = key' := fun e' => h (e'.symm.trans e)
      simp [JsObject.set, e, get_cons, Ne.symm h, this]
    · simp [JsObject.set, e, get_cons, ih]

/-- The dashboard submit handler on form data whose hourlyRate is a string: the
object it passes to createProject. -/
theorem handleSubmit_of_rate (user formData : JsObject) (rate : String)
    (hrate : formData.get "hourlyRate" = JsValue.str rate) :
    ContractorDashboard.handleSubmit (some user) formData =
      some (((((formData.set "status" (JsValue.str "active")).set
        "contractor" (user.get "_id")).set
        "employmentType" (JsValue.str "Contract")).set
        "timeline" (JsValue.obj
          [("startDate", formData.get "startDate"), ("endDate", formData.get "endDate")])).set
        "hourlyRate" (JsValue.obj
          [("min", parseInt (segmentAt (splitOn '-' rate.toList) 0)),
           ("max", parseInt (segmentAt (splitOn '-' rate.toList) 1))])) := by
  simp only [ContractorDashboard.handleSubmit, hrate]

/-! ## C15 -/

/-- C15 (counterexample): the form data carries employmentType Full-time and
the rate string 40-20; the payload passed to createProject has employmentType
Contract and an hourlyRate object, so these two form fields are not passed
through. Contractor and status are those of the handler, not of the form. -/
theorem c15_form_fields_overridden :
    sampleForm.get "employmentType" = JsValue.str "Full-time" ∧
    sampleForm.get "hourlyRate" = JsValue.str "40-20" ∧
    (ContractorDashboard.handleSubmit (some sampleUser) sampleForm).map
        (fun payload => payload.get "employmentType") = some (JsValue.str "Contract") ∧
    (ContractorDashboard.handleSubmit (some sampleUser) sampleForm).map
        (fun payload => payload.get "hourlyRate") =
      some (JsValue.obj [("min", JsValue.num 40), ("max", JsValue.num 20)]) ∧
    (ContractorDashboard.handleSubmit (some sampleUser) sampleForm).map
        (fun payload => (payload.get "contractor", payload.get "status")) =
      some (JsValue.str "u1", JsValue.str "active") :=
  ⟨rfl, rfl, rfl, rfl, rfl⟩

/-- C15 (amended): for a resolved user and form data whose hourlyRate is a
string, the payload passed to createProject has contractor equal to the id of
the user and status active whatever the form data hold for them, employmentType
Contract, a timeline made of the startDate and endDate of the form, and an
hourlyRate made of the parsed first two segments of the rate string; every
other form field is passed through. When the hourlyRate of the form is not a
string, nothing is passed to createProject. -/
theorem c15_payload (user formData : JsObject) (rate : String)
    (hrate : formData.get "hourlyRate" = JsValue.str rate) :
    (∃ payload, ContractorDashboard.handleSubmit (some user) formData = some payload ∧
      payload.get "contractor" = user.get "_id" ∧
      payload.get "status" = JsValue.str "active" ∧
      payload.get "employmentType" = JsValue.str "Contract" ∧
      payload.get "timeline" = JsValue.obj
        [("startDate", formData.get "startDate"), ("endDate", formData.get "endDate")] ∧
      payload.get "hourlyRate" = JsValue.obj
        [("min", parseInt (segmentAt (splitOn '-' rate.toList) 0)),
         ("max", parseInt (segmentAt (splitOn '-' rate.toList) 1))] ∧
      ∀ key, key ∉ ["status", "contractor", "employmentType", "timeline", "hourlyRate"] →
        payload.get key = formData.get key) ∧
    (∀ other : JsObject, (∀ s, other.get "hourlyRate" ≠ JsValue.str s) →
      ContractorDashboard.handleSubmit (some user) other = none) := by
  constructor
  · have hcall := handleSubmit_of_rate user formData rate hrate
    refine ⟨_, hcall, ?_, ?_, ?_, ?_, ?_, ?_⟩
    · rw [get_set_of_ne _ _ (by decide), get_set_of_ne _ _ (by decide),
        get_set_of_ne _ _ (by decide), get_set_self]
    · rw [get_set_of_ne _ _ (by decide), get_set_of_ne _ _ (by decide),
        get_set_of_ne _ _ (by decide), get_set_of_ne _ _ (by decide), get_set_self]
    · rw [get_set_of_ne _ _ (by decide), get_set_of_ne _ _ (by decide), get_set_self]
    · rw [get_set_of_ne _ _ (by decide), get_set_self]
    · rw [get_set_self]
    · intro key hkey
      simp only [List.mem_cons, List.mem_singleton, List.not_mem_nil, or_false, not_or] at hkey
      obtain ⟨h1, h2, h3, h4, h5⟩ := hkey
      rw [get_set_of_ne _ _ h5, get_set_of_ne _ _ h4, get_set_of_ne _ _ h3,
        get_set_of_ne _ _ h2, get_set_of_ne _ _ h1]
  · intro other hother
    unfold ContractorDashboard.handleSubmit
    cases h : other.get "hourlyRate" with
    | str s => exact absurd h (hother s)
    | _ => simp [h]

/-- C15 (witness): the amended property at the sample user and form. -/
theorem c15_payload_witness :
    sampleForm.get "hourlyRate" = JsValue.str "40-20" ∧
    ∃ payload, ContractorDashboard.handleSubmit (some sampleUser) sampleForm = some payload ∧
      payload.get "contractor" = sampleUser.get "_id" ∧
      payload.get "status" = JsValue.str "active" ∧
      payload.get "title" = sampleForm.get "title" :=
  have ⟨payload, h1, h2, h3, _, _, _, h7⟩ := (c15_payload sampleUser sampleForm "40-20" rfl).1
  ⟨rfl, payload, h1, h2, h3, h7 "title" (by decide)⟩

/-! ## C16 -/

/-- C16: for a logged-in user and a project identifier found in the loaded
list, handleApplyNow calls createApplication exactly once, with an application
whose project is that identifier, whose status is pending and whose
contractorDetails carry the businessName, yearsOfExperience and licenseNumber
of the user; without a user, or when no loaded project has the identifier,
createApplication is not called. -/
theorem c16_apply_now (user : JsObject) (projects : List JsObject) (projectId : String)
    (resolves : Bool) (hin : ∃ p ∈ projects, p.get "_id" = JsValue.str projectId) :
    (∃ (application : JsObject) (details : JsObject),
      (ContractorDashboard.handleApplyNow (some user) projects projectId resolves).submitted =
        [application] ∧
      application.get "project" = JsValue.str projectId ∧
      application.get "status" = JsValue.str "pending" ∧
      application.get "contractorDetails" = JsValue.obj details ∧
      details.get "businessName" = user.get "businessName" ∧
      details.get "yearsOfExperience" = user.get "yearsOfExperience" ∧
      details.get "licenseNumber" = user.get "licenseNumber") ∧
    (ContractorDashboard.handleApplyNow none projects projectId resolves).submitted = [] ∧
    (∀ others : List JsObject, (∀ p ∈ others, p.get "_id" ≠ JsValue.str projectId) →
      (ContractorDashboard.handleApplyNow (some user) others projectId resolves).submitted =
        []) := by
  refine ⟨?_, rfl, ?_⟩
  · cases hf : projects.find? (fun p =>
        match p.get "_id" with
        | JsValue.str s => s == projectId
        | _ => false) with
    | none =>
      obtain ⟨p, hp, hid⟩ := hin
      have := List.find?_eq_none.mp hf p hp
      simp [hid] at this
    | some project =>
      refine ⟨applicationData projectId project user, _, ?_, rfl, rfl, rfl, rfl, rfl, rfl⟩
      simp only [ContractorDashboard.handleApplyNow, hf]
  · intro others hothers
    have hf : others.find? (fun p =>
        match p.get "_id" with
        | JsValue.str s => s == projectId
        | _ => false) = none := by
      rw [List.find?_eq_none]
      intro p hp
      have hne := hothers p hp
      cases hv : p.get "_id" with
      | str s =>
        have : s ≠ projectId := fun e => hne (by rw [hv, e])
        simpa using this
      | _ => simp
    simp only [ContractorDashboard.handleApplyNow, hf]

/-- C16 (witness): the sample user applying to project p1 of the loaded
list. -/
theorem c16_apply_now_witness :
    (∃ p ∈ loadedProjects, p.get "_id" = JsValue.str "p1") ∧
    (∃ (application : JsObject) (details : JsObject),
      (ContractorDashboard.handleApplyNow (some sampleUser) loadedProjects "p1" true).submitted =
        [application] ∧
      application.get "project" = JsValue.str "p1" ∧
      application.get "status" = JsValue.str "pending" ∧
      application.get "contractorDetails" = JsValue.obj details ∧
      details.get "businessName" = JsValue.str "Acme Build" ∧
      details.get "yearsOfExperience" = JsValue.num 12 ∧
      details.get "licenseNumber" = JsValue.str "LIC-77") ∧
    (ContractorDashboard.handleApplyNow (some sampleUser) loadedProjects "p9" true).submitted =
      [] :=
  have hin : ∃ p ∈ loadedProjects, p.get "_id" = JsValue.str "p1" :=
    ⟨_, List.mem_singleton.mpr rfl, rfl⟩
  have h := c16_apply_now sampleUser loadedProjects "p1" true hin
  ⟨hin, h.1, rfl⟩

/-! ## C17 -/

theorem digit_bounds {c : Char} (h : isDecimalDigit c = true) :
    48 ≤ c.toNat ∧ c.toNat ≤ 57 := by
  simpa [isDecimalDigit] using h

theorem digit_ne {c d : Char} (h : isDecimalDigit c = true) (hd : isDecimalDigit d = false) :
    c ≠ d := by
  rintro rfl
  rw [h] at hd
  exact Bool.noConfusion hd

theorem digit_not_space {c : Char} (h : isDecimalDigit c = true) : isWhiteSpace c = false := by
  obtain ⟨h1, h2⟩ := digit_bounds h
  simp only [isWhiteSpace, List.mem_cons, List.mem_singleton, List.not_mem_nil, or_false,
    Bool.or_eq_false_iff, decide_eq_false_iff_not, Bool.and_eq_false_iff, not_or]
  refine ⟨?_, ?_⟩
  · omega
  · left; omega

theorem digitValue_of_digit {c : Char} (h : isDecimalDigit c = true) :
    digitValue c = some (c.toNat - 48) := by
  obtain ⟨h1, h2⟩ := digit_bounds h
  simp [digitValue, h1, h2]

theorem takeDigits_of_digits (ds : List Char) (h : ∀ c ∈ ds, isDecimalDigit c = true) :
    takeDigits 10 ds = ds.map (fun c => c.toNat - 48) := by
  induction ds with
  | nil => rfl
  | cons c cs ih =>
    have hc := h c (List.mem_cons_self _ _)
    obtain ⟨h1, h2⟩ := digit_bounds hc
    have hlt : c.toNat - 48 < 10 := by omega
    simp [takeDigits, digitValue_of_digit hc, hlt,
      ih (fun d hd => h d (List.mem_cons_of_mem _ hd))]

theorem splitOn_of_no_sep (sep : Char) (s : List Char) (h : ∀ c ∈ s, c ≠ sep) :
    splitOn sep s = [s] := by
  induction s with
  | nil => rfl
  | cons c cs ih =>
    have hc : ¬ c = sep := h c (List.mem_cons_self _ _)
    simp [splitOn, hc, ih (fun d hd => h d (List.mem_cons_of_mem _ hd))]

theorem splitOn_pair (sep : Char) (a b : List Char) (ha : ∀ c ∈ a, c ≠ sep)
    (hb : ∀ c ∈ b, c ≠ sep) : splitOn sep (a ++ sep :: b) = [a, b] := by
  induction a with
  | nil => simp [splitOn, splitOn_of_no_sep sep b hb]
  | cons c cs ih =>
    have hc : ¬ c = sep := ha c (List.mem_cons_self _ _)
    simp [splitOn, hc, ih (fun d hd => ha d (List.mem_cons_of_mem _ hd))]

theorem stripRadix_of_digits (ds : List Char) (h : ∀ c ∈ ds, isDecimalDigit c = true) :
    stripRadix ds = (10, ds) := by
  unfold stripRadix
  split
  · have := h 'x' (by simp)
    exact absurd this (by decide)
  · have := h 'X' (by simp)
    exact absurd this (by decide)
  · rfl

theorem roundDouble_of_lt {n : Nat} (h : n < 9007199254740992) : roundDouble n = some n := by
  simp [roundDouble, h]

/-- On a non-empty run of decimal digits that writes a number below 2^53,
`parseInt` gives that number. -/
theorem parseIntChars_of_digits (ds : List Char) (hne : ds ≠ [])
    (h : ∀ c ∈ ds, isDecimalDigit c = true) (hsmall : decimalValue ds < 9007199254740992) :
    parseIntChars ds = JsValue.num (decimalValue ds) := by
  cases ds with
  | nil => exact absurd rfl hne
  | cons c cs =>
    have hc := h c (List.mem_cons_self _ _)
    have hdrop : (c :: cs).dropWhile isWhiteSpace = c :: cs := by
      simp [List.dropWhile, digit_not_space hc]
    have hminus : c ≠ '-' := digit_ne hc (by decide)
    have hplus : c ≠ '+' := digit_ne hc (by decide)
    have hdigits : parseDigits 1 (c :: cs) = JsValue.num (decimalValue (c :: cs)) := by
      have hr := roundDouble_of_lt hsmall
      simp only [decimalValue, List.map_cons] at hr
      unfold parseDigits
      rw [stripRadix_of_digits (c :: cs) h, takeDigits_of_digits (c :: cs) h]
      simp [decimalValue, hr]
    unfold parseIntChars
    rw [hdrop]
    split
    · rename_i heq
      exact absurd (List.cons.inj heq).1 hminus
    · rename_i heq
      exact absurd (List.cons.inj heq).1 hplus
    · exact hdigits

/-- C17 (counterexample): the rate string 40-20 gives the pair min 40, max 20;
the empty rate string gives NaN for both; and the create handler accepts a body
whose hourlyRate has min 40 and max 20 and stores it as given. -/
theorem c17_rate_not_ordered :
    (ContractorDashboard.handleSubmit (some sampleUser) sampleForm).map
        (fun payload => payload.get "hourlyRate") =
      some (JsValue.obj [("min", JsValue.num 40), ("max", JsValue.num 20)]) ∧
    (ContractorDashboard.handleSubmit (some sampleUser) [("hourlyRate", JsValue.str "")]).map
        (fun payload => payload.get "hourlyRate") =
      some (JsValue.obj [("min", JsValue.nan), ("max", JsValue.nan)]) ∧
    (router.post env0 invertedRateBody []).1.status = 201 ∧
    ((router.post env0 invertedRateBody []).2.map (fun p => p.hourlyRate)) =
      [{ min := some 40, max := some 20 }] ∧
    ¬ ((40 : Int) ≤ 20) :=
  ⟨rfl, rfl, by decide, by decide, by decide⟩

/-- The parse of a run of digits is a double: 2^53 + 1 parses to 2^53, so the
rate string of these two numbers, written in descending order, gives equal min
and max. -/
theorem parseInt_rounds_to_double :
    parseInt (JsValue.str "9007199254740993") = JsValue.num 9007199254740992 ∧
    parseInt (JsValue.str "9007199254740992") = JsValue.num 9007199254740992 :=
  ⟨rfl, rfl⟩

/-- C17 (amended): when the rate string of the form is a non-empty run of
decimal digits, a hyphen and another such run, both writing numbers below 2^53
(which a double holds exactly), the hourlyRate built by the dashboard handler
has the two numbers written as min and max, in that order and without comparing
them, so min ≤ max holds exactly when the first number is not above the second.
For any rate string the pair is the parse of the segment before the first
hyphen and the parse of the segment after it, up to the next hyphen. The create
handler stores the hourlyRate of every accepted body as cast, whatever the
order of min and max. -/
theorem c17_hourly_rate (user formData : JsObject) (a b : List Char)
    (ha : a ≠ []) (hb : b ≠ [])
    (hda : ∀ c ∈ a, isDecimalDigit c = true) (hdb : ∀ c ∈ b, isDecimalDigit c = true)
    (hsa : decimalValue a < 9007199254740992) (hsb : decimalValue b < 9007199254740992)
    (hrate : formData.get "hourlyRate" = JsValue.str (String.mk (a ++ '-' :: b))) :
    (∃ payload, ContractorDashboard.handleSubmit (some user) formData = some payload ∧
      payload.get "hourlyRate" = JsValue.obj
        [("min", JsValue.num (decimalValue a)), ("max", JsValue.num (decimalValue b))]) ∧
    (∀ (other : JsObject) (rate : String), other.get "hourlyRate" = JsValue.str rate →
      ∃ payload, ContractorDashboard.handleSubmit (some user) other = some payload ∧
        payload.get "hourlyRate" = JsValue.obj
          [("min", parseInt (segmentAt (splitOn '-' rate.toList) 0)),
           ("max", parseInt (segmentAt (splitOn '-' rate.toList) 1))]) ∧
    (∀ (lib : Library) (env : Env) (payload : JsObject) (store : Store),
      (http.postProject lib env payload store).1.status = 201 →
      ∃ body p, lib.readDocument payload = some body ∧
        http.postProject lib env payload store =
          ({ status := 201, body := Json.project p }, store ++ [p]) ∧
        p.hourlyRate = body.hourlyRate.getD { min := none, max := none }) := by
  refine ⟨?_, ?_, ?_⟩
  · refine ⟨_, handleSubmit_of_rate user formData _ hrate, ?_⟩
    rw [get_set_self]
    have hsep : isDecimalDigit '-' = false := by decide
    have hsplit : splitOn '-' (String.mk (a ++ '-' :: b)).toList = [a, b] :=
      splitOn_pair '-' a b (fun c hc => digit_ne (hda c hc) hsep)
        (fun c hc => digit_ne (hdb c hc) hsep)
    rw [hsplit]
    have h0 : parseInt (segmentAt [a, b] 0) = JsValue.num (decimalValue a) :=
      parseIntChars_of_digits a ha hda hsa
    have h1 : parseInt (segmentAt [a, b] 1) = JsValue.num (decimalValue b) :=
      parseIntChars_of_digits b hb hdb hsb
    rw [h0, h1]
  · intro other rate hother
    exact ⟨_, handleSubmit_of_rate user other rate hother, get_set_self _ _ _⟩
  · intro lib env payload store hs
    cases hread : lib.readDocument payload with
    | none =>
      simp [http.postProject, hread] at hs
    | some body =>
      have e : http.postProject lib env payload store = router.post env body store := by
        simp only [http.postProject, hread]
      rw [e] at hs ⊢
      rw [router_post_eq] at hs ⊢
      by_cases hv : (Project.new env body).validate = []
      · rw [if_pos hv]
        exact ⟨body, _, rfl, rfl, rfl⟩
      · rw [if_neg hv] at hs
        simp at hs

/-- C17 (witness): the amended property at the rate string 20-30. -/
theorem c17_hourly_rate_witness :
    builderForm.get "hourlyRate" = JsValue.str (String.mk ("20".toList ++ '-' :: "30".toList)) ∧
    ∃ payload, ContractorDashboard.handleSubmit (some sampleUser) builderForm = some payload ∧
      payload.get "hourlyRate" = JsValue.obj
        [("min", JsValue.num (decimalValue "20".toList)),
         ("max", JsValue.num (decimalValue "30".toList))] ∧
      decimalValue "20".toList = 20 ∧ decimalValue "30".toList = 30 :=
  have ⟨payload, h1, h2⟩ :=
    (c17_hourly_rate sampleUser builderForm "20".toList "30".toList (by decide) (by decide)
      (by decide) (by decide) (by decide) (by decide) rfl).1
  ⟨rfl, payload, h1, h2, by decide, by decide⟩

/-! ## C18 -/

/-- C18: for every form state and every user, the payload of the submit handler
of PostProjectForm has no contractor property, carries the id of the user as
postedBy, and carries hourlyRate and timeline as the form holds them (the
strings typed in the inputs); the body the model reads from it has no
contractor, so the create handler answers 400 and the store is left as it was.
The casts of the model layer are arbitrary, provided an absent property gives
no contractor. -/
theorem c18_builder_form_rejected (casts : Casts) (user formData : JsObject) (isoNow : String)
    (env : Env) (store : Store) (habsent : casts.objectId JsValue.undefined = none) :
    ∃ payload, PostProjectForm.handleSubmit (some user) isoNow formData = some payload ∧
      payload.has "contractor" = false ∧
      payload.get "postedBy" = user.get "_id" ∧
      payload.get "hourlyRate" = formData.get "hourlyRate" ∧
      payload.get "timeline" = formData.get "timeline" ∧
      (toBody casts payload).contractor = none ∧
      (router.post env (toBody casts payload) store).1.status = 400 ∧
      (router.post env (toBody casts payload) store).2 = store := by
  refine ⟨_, rfl, rfl, rfl, rfl, rfl, habsent, ?_⟩
  have hmiss : ∀ body : Body, body.contractor = none →
      (router.post env body store).1.status = 400 ∧ (router.post env body store).2 = store := by
    intro body hc
    have hbad : (body.missingRequired || body.emptyRequired || body.invalidEnum) = true := by
      simp [Body.missingRequired, hc]
    have hv : ¬ (Project.new env body).validate = [] := fun h => by
      rw [(validate_new_eq_nil env body).mp h] at hbad
      exact Bool.noConfusion hbad
    rw [router_post_eq, if_neg hv]
    exact ⟨rfl, rfl⟩
  exact hmiss _ habsent

/-- C18 (witness): the sample user submitting the form state of the builder
form, read by the plain casts, on the empty store. -/
theorem c18_builder_form_rejected_witness :
    plainCasts.objectId JsValue.undefined = none ∧
    ∃ payload, PostProjectForm.handleSubmit (some sampleUser) "2025-01-01T00:00:00.000Z"
        builderForm = some payload ∧
      payload.has "contractor" = false ∧
      payload.get "hourlyRate" = JsValue.str "20-30" ∧
      payload.get "timeline" = JsValue.str "3 months" ∧
      (router.post env0 (toBody plainCasts payload) []).1.status = 400 ∧
      (router.post env0 (toBody plainCasts payload) []).2 = [] :=
  have ⟨payload, h1, h2, _, h4, h5, _, h7, h8⟩ :=
    c18_builder_form_rejected plainCasts sampleUser builderForm "2025-01-01T00:00:00.000Z"
      env0 [] rfl
  ⟨rfl, payload, h1, h2, h4.trans rfl, h5.trans rfl, h7, h8⟩

end LabourNet
